import Mathlib

/-!
# BannerRemoveAction: a shallow embedding

The definitions below follow `src/openrct2/actions/BannerRemoveAction.cpp`.
The action reads and writes a shared world (tile element stacks, banner
records); here the world is an explicit value that `Query` and `Execute`
receive and hand back.  Collaborators whose code is outside the translated
sources (`LocationValid`, `map_can_build_at`, the tile pointer table,
`get_banner_entry`, numeric constants) are gathered in `Externals` and every
theorem holds for all of their values.  `log_error` only writes diagnostics
and is left out.  Coordinates are `int32` in the source; signed overflow is
undefined there, so the model uses unbounded integers.
-/

namespace OpenRCT2

/-- CoordsXYZ: a world position. -/
structure CoordsXYZ where
  x : Int
  y : Int
  z : Int
deriving DecidableEq, Repr

/-- CoordsXYZD: a world position with a facing (`Direction` is unsigned). -/
structure CoordsXYZD where
  x : Int
  y : Int
  z : Int
  direction : Nat
deriving DecidableEq, Repr

/-- The status kinds of `GameActions::Status` that the banner removal uses. -/
inductive Status where
  | Ok
  | InvalidParameters
  | NotOwned
deriving DecidableEq, Repr

/-- The string identifiers the banner removal uses. -/
inductive StringId where
  | STR_NONE
  | STR_CANT_REMOVE_THIS
  | STR_LAND_NOT_OWNED_BY_PARK
deriving DecidableEq, Repr

/-- The accounting bucket named by the banner removal. -/
inductive ExpenditureType where
  | Landscaping
deriving DecidableEq, Repr

/-- Modelled from the spec: `GameActions::Result`, whose declaration is missing
from the sources.  It is a plain data carrier with a status, two message
identifiers, a monetary cost, an expenditure category and a position that
"may be left unset" (`none`). -/
structure Result where
  Error : Status
  ErrorTitle : StringId
  ErrorMessage : StringId
  Position : Option CoordsXYZ
  Cost : Int
  Expenditure : Option ExpenditureType
deriving DecidableEq, Repr

/-- Modelled from the spec: the "success, no detail" factory form `MakeResult()`. -/
def MakeResult : Result :=
  { Error := Status.Ok, ErrorTitle := StringId.STR_NONE, ErrorMessage := StringId.STR_NONE,
    Position := none, Cost := 0, Expenditure := none }

/-- Modelled from the spec: the "failure with status + message identifiers"
factory form `MakeResult(status, title, message)`; the two-argument call of
the source passes no detail message (`STR_NONE`). -/
def MakeResultError (status : Status) (title : StringId) (message : StringId) : Result :=
  { Error := status, ErrorTitle := title, ErrorMessage := message,
    Position := none, Cost := 0, Expenditure := none }

/-- A tile element as the banner removal reads it: `GetType()`, `GetBaseZ()`,
`IsGhost()`, `IsLastForTile()`, and for banners `GetPosition()` and
`GetIndex()`. -/
structure TileElement where
  type : Nat
  baseZ : Int
  ghost : Bool
  lastForTile : Bool
  position : Nat
  index : Nat
deriving DecidableEq, Repr

/-- A banner record; the removal reads only its `type`. -/
structure Banner where
  type : Nat
deriving DecidableEq, Repr

/-- The part of a scenery entry the removal reads: `banner.price`. -/
structure SceneryEntry where
  price : Int
deriving DecidableEq, Repr

/-- The shared world: for every tile pointer slot the elements stored from the
tile's first element on, the banner records by banner index, and the
invalidation requests issued through `map_invalidate_tile_zoom1`. -/
structure World where
  tiles : List (List TileElement)
  banners : List (Option Banner)
  invalidated : List (CoordsXYZD × Int × Int)
deriving DecidableEq, Repr

/-- Modelled from the spec: the base `GameAction`, whose declaration is missing
from the sources.  It holds the shared envelope fields "type tag, flags,
player/originator id". -/
structure GameAction where
  type : Nat
  flags : Nat
  playerId : Int
deriving DecidableEq, Repr

/-- BannerRemoveAction: the base envelope and the private member `_loc`. -/
structure BannerRemoveAction where
  base : GameAction
  _loc : CoordsXYZD
deriving DecidableEq, Repr

/-- The collaborators and constants that the translated functions use and whose
code is outside the sources: the base method `LocationValid`, the map query
`map_can_build_at`, the tile pointer table behind `map_get_first_element_at`
(`none` outside the map), the object table behind `get_banner_entry`, and
four numeric constants. -/
structure Externals where
  LocationValid : World → GameAction → CoordsXYZD → Bool
  map_can_build_at : World → CoordsXYZ → Bool
  tilePointer : Int → Int → Option Nat
  get_banner_entry : Nat → Option SceneryEntry
  MAX_BANNERS : Nat
  BANNER_INDEX_NULL : Nat
  TILE_ELEMENT_TYPE_BANNER : Nat
  GAME_COMMAND_FLAG_GHOST : Nat

/-- The call `GetFlags()` of the base action. -/
def BannerRemoveAction.GetFlags (a : BannerRemoveAction) : Nat :=
  a.base.flags

/-- The call `map_get_first_element_at(_loc)`: the elements stored from the
tile's first element on; the null pointer is the empty list. -/
def map_get_first_element_at (ext : Externals) (w : World) (x y : Int) : List TileElement :=
  match ext.tilePointer x y with
  | none => []
  | some t => w.tiles.getD t []

/-- The four `continue` guards of the loop body in `GetBannerElementAt`: the
element is returned exactly when none of them fires. -/
def bannerMatch (ext : Externals) (a : BannerRemoveAction) (e : TileElement) : Bool :=
  if e.type ≠ ext.TILE_ELEMENT_TYPE_BANNER then false
  else if e.baseZ ≠ a._loc.z then false
  else if e.ghost = true ∧ a.GetFlags &&& ext.GAME_COMMAND_FLAG_GHOST = 0 then false
  else if e.position ≠ a._loc.direction then false
  else true

/-- The `do ... while (!(tileElement++)->IsLastForTile())` loop of
`GetBannerElementAt`, started at offset `i` from the tile's first element.
The result is the offset of the returned element together with the element.
An exhausted list stands for the null pointer and bounds the scan of a tile
whose stored elements carry no last-for-tile flag. -/
def scanTile (ext : Externals) (a : BannerRemoveAction) :
    Nat → List TileElement → Option (Nat × TileElement)
  | _, [] => none
  | i, e :: rest =>
    if bannerMatch ext a e then some (i, e)
    else if e.lastForTile then none
    else scanTile ext a (i + 1) rest

/-- BannerRemoveAction::GetBannerElementAt. -/
def BannerRemoveAction.GetBannerElementAt (ext : Externals) (a : BannerRemoveAction)
    (w : World) : Option (Nat × TileElement) :=
  scanTile ext a 0 (map_get_first_element_at ext w a._loc.x a._loc.y)

/-- Modelled from the spec: `BannerElement::GetBanner`, missing from the
sources.  The index "must resolve successfully" to a banner record; a stale
or dangling index resolves to nothing. -/
def GetBanner (w : World) (index : Nat) : Option Banner :=
  match w.banners[index]? with
  | some (some b) => some b
  | _ => none

/-- Modelled from the spec: `tile_element_remove_banner_entry`, missing from
the sources.  It "physically detach[es] the entity from the world element":
the banner record at the element's index is released. -/
def tile_element_remove_banner_entry (w : World) (e : TileElement) : World :=
  { w with banners := w.banners.set e.index none }

/-- The call `map_invalidate_tile_zoom1({ _loc, _loc.z, _loc.z + 32 })`: the
request is recorded. -/
def map_invalidate_tile_zoom1 (w : World) (loc : CoordsXYZD) (zLow zHigh : Int) : World :=
  { w with invalidated := w.invalidated ++ [(loc, zLow, zHigh)] }

/-- Modelled from the spec: the slot release of `TileElement::Remove`, missing
from the sources.  The element at offset `i` leaves the tile's sequence; all
other elements are kept as they are, in their order. -/
def removeElementAt (i : Nat) (l : List TileElement) : List TileElement :=
  l.eraseIdx i

/-- Modelled from the spec: `bannerElement->Remove()` on the world, missing
from the sources: the slot at offset `i` of the tile at `(x, y)` is released,
every other tile is left as it is. -/
def TileElement.Remove (ext : Externals) (w : World) (x y : Int) (i : Nat) : World :=
  match ext.tilePointer x y with
  | none => w
  | some t => { w with tiles := w.tiles.modify (removeElementAt i) t }

/-- BannerRemoveAction::Query, with the world handed back beside the result. -/
def BannerRemoveAction.Query (ext : Externals) (a : BannerRemoveAction) (w : World) :
    Result × World :=
  let res : Result :=
    { MakeResult with
      Expenditure := some ExpenditureType.Landscaping
      Position := some ⟨a._loc.x + 16, a._loc.y + 16, a._loc.z⟩
      ErrorTitle := StringId.STR_CANT_REMOVE_THIS }
  if (!ext.LocationValid w a.base a._loc
      || !ext.map_can_build_at w ⟨a._loc.x, a._loc.y, a._loc.z - 16⟩) = true then
    (MakeResultError Status.NotOwned StringId.STR_CANT_REMOVE_THIS
      StringId.STR_LAND_NOT_OWNED_BY_PARK, w)
  else
    match a.GetBannerElementAt ext w with
    | none =>
      (MakeResultError Status.InvalidParameters StringId.STR_CANT_REMOVE_THIS StringId.STR_NONE, w)
    | some (_, bannerElement) =>
      if ext.MAX_BANNERS ≤ bannerElement.index ∨ bannerElement.index = ext.BANNER_INDEX_NULL then
        (MakeResultError Status.InvalidParameters StringId.STR_CANT_REMOVE_THIS
          StringId.STR_NONE, w)
      else
        match GetBanner w bannerElement.index with
        | none =>
          (MakeResultError Status.InvalidParameters StringId.STR_CANT_REMOVE_THIS
            StringId.STR_NONE, w)
        | some banner =>
          match ext.get_banner_entry banner.type with
          | some bannerEntry => ({ res with Cost := -((bannerEntry.price * 3).tdiv 4) }, w)
          | none => (res, w)

/-- BannerRemoveAction::Execute, with the resulting world beside the result. -/
def BannerRemoveAction.Execute (ext : Externals) (a : BannerRemoveAction) (w : World) :
    Result × World :=
  let res : Result :=
    { MakeResult with
      Expenditure := some ExpenditureType.Landscaping
      Position := some ⟨a._loc.x + 16, a._loc.y + 16, a._loc.z⟩
      ErrorTitle := StringId.STR_CANT_REMOVE_THIS }
  match a.GetBannerElementAt ext w with
  | none =>
    (MakeResultError Status.InvalidParameters StringId.STR_CANT_REMOVE_THIS StringId.STR_NONE, w)
  | some (i, bannerElement) =>
    if ext.MAX_BANNERS ≤ bannerElement.index ∨ bannerElement.index = ext.BANNER_INDEX_NULL then
      (MakeResultError Status.InvalidParameters StringId.STR_CANT_REMOVE_THIS
        StringId.STR_NONE, w)
    else
      match GetBanner w bannerElement.index with
      | none =>
        (MakeResultError Status.InvalidParameters StringId.STR_CANT_REMOVE_THIS
          StringId.STR_NONE, w)
      | some banner =>
        let w1 := tile_element_remove_banner_entry w bannerElement
        let w2 := map_invalidate_tile_zoom1 w1 a._loc a._loc.z (a._loc.z + 32)
        let w3 := TileElement.Remove ext w2 a._loc.x a._loc.y i
        match ext.get_banner_entry banner.type with
        | some bannerEntry => ({ res with Cost := -((bannerEntry.price * 3).tdiv 4) }, w3)
        | none => (res, w3)

/-- The elements of a tile as the scan sees them: from the first element up to
and including the first one flagged last-for-tile. -/
def tileStack : List TileElement → List TileElement
  | [] => []
  | e :: rest => if e.lastForTile then [e] else e :: tileStack rest

/-! ## A small concrete park

An 8 x 8 map of 32-unit tiles.  Every tile holds a surface element; the park
owns the tiles whose coordinates lie in `[32, 224)`. -/

/-- Sample collaborators: the map spans `[0, 256)` in both axes, land is
buildable inside the park, banner type 0 has a scenery entry of price 100. -/
def sampleExternals : Externals :=
  { LocationValid := fun _ _ loc => decide (0 ≤ loc.x ∧ loc.x < 256 ∧ 0 ≤ loc.y ∧ loc.y < 256)
    map_can_build_at := fun _ p => decide (32 ≤ p.x ∧ p.x < 224 ∧ 32 ≤ p.y ∧ p.y < 224)
    tilePointer := fun x y =>
      if 0 ≤ x ∧ x < 256 ∧ 0 ≤ y ∧ y < 256 then some ((x / 32).toNat + 8 * (y / 32).toNat)
      else none
    get_banner_entry := fun t => if t = 0 then some ⟨100⟩ else none
    MAX_BANNERS := 250
    BANNER_INDEX_NULL := 65535
    TILE_ELEMENT_TYPE_BANNER := 36
    GAME_COMMAND_FLAG_GHOST := 64 }

/-- A surface element, not last on its tile. -/
def surfaceElement : TileElement :=
  { type := 0, baseZ := 32, ghost := false, lastForTile := false, position := 0, index := 0 }

/-- A banner element at height 48 facing `direction`, bound to banner `index`. -/
def bannerElementAt (direction index : Nat) (last : Bool) : TileElement :=
  { type := 36, baseZ := 48, ghost := false, lastForTile := last, position := direction,
    index := index }

/-- A tile that holds only its surface element. -/
def plainTile : List TileElement :=
  [{ surfaceElement with lastForTile := true }]

/-- The sample park: a banner facing direction 0 on the tile at (160, 160),
inside the park, and one on the tile at (0, 0), outside the owned land. -/
def sampleWorld : World :=
  { tiles :=
      (List.replicate 64 plainTile
        |>.set 45 [surfaceElement, bannerElementAt 0 0 true]
        |>.set 0 [surfaceElement, bannerElementAt 0 1 true])
    banners := [some ⟨0⟩, some ⟨0⟩]
    invalidated := [] }

/-- A world whose tile at (160, 160) holds two banners with the same height
and facing, bound to different banner records. -/
def twinBannerWorld : World :=
  { tiles :=
      (List.replicate 64 plainTile
        |>.set 45 [surfaceElement, bannerElementAt 0 0 false, bannerElementAt 0 1 true])
    banners := [some ⟨0⟩, some ⟨0⟩]
    invalidated := [] }

/-- The removal of the banner at `(x, y, 48)` facing `direction`, issued by
player 0 without flags. -/
def removeBannerAt (x y : Int) (direction : Nat) : BannerRemoveAction :=
  { base := { type := 0, flags := 0, playerId := 0 }
    _loc := { x := x, y := y, z := 48, direction := direction } }

/-! ## Serialisation -/

/-- Modelled from the spec: one typed field of the serialisation stream. -/
inductive Field where
  | unsignedField (v : Nat)
  | signedField (v : Int)
deriving DecidableEq, Repr

/-- Modelled from the spec: `DataSerialiser`, missing from the sources.  The
stream is an "ordered, typed field writer/reader" whose direction "is a
stream-mode property": when saving a visited field is appended, when loading
the next field is taken from the front and replaces the visited value.
Loading fails on an exhausted stream or on a field of another type. -/
structure DataSerialiser where
  isSaving : Bool
  fields : List Field
deriving DecidableEq, Repr

/-- The stream operator on a signed field. -/
def DataSerialiser.visitSigned (s : DataSerialiser) (v : Int) : Option (DataSerialiser × Int) :=
  if s.isSaving then some ({ s with fields := s.fields ++ [Field.signedField v] }, v)
  else
    match s.fields with
    | Field.signedField x :: rest => some ({ s with fields := rest }, x)
    | _ => none

/-- The stream operator on an unsigned field. -/
def DataSerialiser.visitUnsigned (s : DataSerialiser) (v : Nat) : Option (DataSerialiser × Nat) :=
  if s.isSaving then some ({ s with fields := s.fields ++ [Field.unsignedField v] }, v)
  else
    match s.fields with
    | Field.unsignedField x :: rest => some ({ s with fields := rest }, x)
    | _ => none

/-- The stream operator on a `CoordsXYZD`: x, y, z and the direction. -/
def DataSerialiser.visitCoordsXYZD (s : DataSerialiser) (loc : CoordsXYZD) :
    Option (DataSerialiser × CoordsXYZD) :=
  match s.visitSigned loc.x with
  | none => none
  | some (s1, x) =>
    match s1.visitSigned loc.y with
    | none => none
    | some (s2, y) =>
      match s2.visitSigned loc.z with
      | none => none
      | some (s3, z) =>
        match s3.visitUnsigned loc.direction with
        | none => none
        | some (s4, d) => some (s4, { x := x, y := y, z := z, direction := d })

/-- Modelled from the spec: the base `GameAction::Serialise`, missing from the
sources, which serialises the "shared envelope fields (type tag, flags,
player/originator id)". -/
def GameAction.Serialise (g : GameAction) (s : DataSerialiser) :
    Option (DataSerialiser × GameAction) :=
  match s.visitUnsigned g.type with
  | none => none
  | some (s1, t) =>
    match s1.visitUnsigned g.flags with
    | none => none
    | some (s2, f) =>
      match s2.visitSigned g.playerId with
      | none => none
      | some (s3, p) => some (s3, { type := t, flags := f, playerId := p })

/-- BannerRemoveAction::Serialise: the base envelope first, then `_loc`.  The
result is the stream and the action after the call. -/
def BannerRemoveAction.Serialise (a : BannerRemoveAction) (stream : DataSerialiser) :
    Option (DataSerialiser × BannerRemoveAction) :=
  match a.base.Serialise stream with
  | none => none
  | some (s1, base) =>
    match s1.visitCoordsXYZD a._loc with
    | none => none
    | some (s2, loc) => some (s2, { base := base, _loc := loc })

/-- The fields an action writes to an empty stream in write mode. -/
def BannerRemoveAction.written (a : BannerRemoveAction) : Option (List Field) :=
  (a.Serialise { isSaving := true, fields := [] }).map fun r => r.1.fields

/-! ## The lookup in words, parameter visiting, further sample data -/

/-- The element the lookup is after, in the words of its description: a
banner with base height `z` and orientation equal to the direction that is
visible to the action, a ghost element being visible only to an action that
carries the ghost flag. -/
def IsSoughtBanner (ext : Externals) (a : BannerRemoveAction) (e : TileElement) : Prop :=
  e.type = ext.TILE_ELEMENT_TYPE_BANNER ∧ e.baseZ = a._loc.z ∧
    e.position = a._loc.direction ∧
    (e.ghost = true → a.GetFlags &&& ext.GAME_COMMAND_FLAG_GHOST ≠ 0)

instance (ext : Externals) (a : BannerRemoveAction) (e : TileElement) :
    Decidable (IsSoughtBanner ext a e) := by
  unfold IsSoughtBanner
  infer_instance

/-- Modelled from the spec: a parameter as a `GameActionParameterVisitor`
sees it; the visitor's declaration is missing from the sources.  The banner
removal shows it one kind of field, a `CoordsXYZD`. -/
inductive Parameter where
  | coordsXYZD (value : CoordsXYZD)
deriving DecidableEq, Repr

/-- Modelled from the spec: `GameActionParameterVisitor`, "a generic visitor"
to which an action "exposes each parameter field": it records the fields it
is shown, in the order of the visits. -/
structure GameActionParameterVisitor where
  visited : List Parameter
deriving DecidableEq, Repr

/-- The call `visitor.Visit(_loc)` on a `CoordsXYZD`. -/
def GameActionParameterVisitor.Visit (visitor : GameActionParameterVisitor)
    (loc : CoordsXYZD) : GameActionParameterVisitor :=
  { visited := visitor.visited ++ [Parameter.coordsXYZD loc] }

/-- BannerRemoveAction::AcceptParameters. -/
def BannerRemoveAction.AcceptParameters (a : BannerRemoveAction)
    (visitor : GameActionParameterVisitor) : GameActionParameterVisitor :=
  visitor.Visit a._loc

/-- The stream fields that transmit one parameter: for a `CoordsXYZD` its x,
y, z and direction, as `DataSerialiser.visitCoordsXYZD` writes them. -/
def Parameter.streamFields : Parameter → List Field
  | Parameter.coordsXYZD loc =>
    [Field.signedField loc.x, Field.signedField loc.y, Field.signedField loc.z,
      Field.unsignedField loc.direction]

/-- The fields the base `GameAction::Serialise` writes to an empty stream in
write mode: the envelope. -/
def GameAction.written (g : GameAction) : Option (List Field) :=
  (g.Serialise { isSaving := true, fields := [] }).map fun r => r.1.fields

/-- The removal of the banner at `(x, y, 48)` facing `direction`, issued with
the ghost flag of the sample collaborators. -/
def removeGhostBannerAt (x y : Int) (direction : Nat) : BannerRemoveAction :=
  { base := { type := 0, flags := 64, playerId := 0 }
    _loc := { x := x, y := y, z := 48, direction := direction } }

/-- A world whose tile at (160, 160) holds a ghost banner facing direction 0. -/
def ghostBannerWorld : World :=
  { tiles :=
      (List.replicate 64 plainTile
        |>.set 45 [surfaceElement, { bannerElementAt 0 0 true with ghost := true }])
    banners := [some ⟨0⟩]
    invalidated := [] }

/-- A world whose tile at (160, 160) holds a banner element whose index 7
resolves to no banner record. -/
def danglingBannerWorld : World :=
  { tiles := (List.replicate 64 plainTile |>.set 45 [surfaceElement, bannerElementAt 0 7 true])
    banners := [some ⟨0⟩]
    invalidated := [] }

/-! ## String utilities

The definitions below follow `src/openrct2/core/String.cpp`.  A string is the
list of its bytes; a C string is held by a buffer that stores the bytes and a
terminating 0.  Pointers into a buffer are offsets from its start. -/

/-- The collaborators of the string functions whose code is outside the
sources: the decoder `utf8_get_next` behind `GetNextCodepoint` (from the bytes
stored at the pointer it yields the codepoint and the number of bytes to step
over), the C library predicate `iswspace` together with the cast of its
argument to `wchar_t`, and the constant `WCHAR_MAX`. -/
structure TextExternals where
  utf8_get_next : List Nat → Nat × Nat
  iswspace : Nat → Bool
  WCHAR_MAX : Nat

/-- String::GetNextCodepoint: the codepoint at `ptr` and the next pointer. -/
def String.GetNextCodepoint (ext : TextExternals) (buffer : List Nat) (ptr : Nat) : Nat × Nat :=
  ((ext.utf8_get_next (buffer.drop ptr)).1, ptr + (ext.utf8_get_next (buffer.drop ptr)).2)

/-- String::IsWhiteSpace. -/
def String.IsWhiteSpace (ext : TextExternals) (codepoint : Nat) : Bool :=
  ext.iswspace codepoint || codepoint == 0x3000

/-- The `while` loop of `String::Trim(const std::string&)`.  The state is the
pointer `ch` and the two pointers `startSubstr` and `endSubstr` (`none` for
the null pointer); the result is their value when the loop ends.  A read at or
beyond the end of the buffer, and a loop that is not over after `fuel` rounds,
give no result. -/
def String.trimLoop (ext : TextExternals) (buffer : List Nat) :
    Nat → Nat → Option Nat → Option Nat → Option (Option Nat × Option Nat)
  | 0, _, _, _ => none
  | fuel + 1, ch, startSubstr, endSubstr =>
    if buffer.length ≤ ch then none
    else if (String.GetNextCodepoint ext buffer ch).1 = 0 then some (startSubstr, endSubstr)
    else if (decide ((String.GetNextCodepoint ext buffer ch).1 ≤ ext.WCHAR_MAX)
        && String.IsWhiteSpace ext (String.GetNextCodepoint ext buffer ch).1) = false then
      String.trimLoop ext buffer fuel (String.GetNextCodepoint ext buffer ch).2
        (if startSubstr = none then some ch else startSubstr)
        (some ((String.GetNextCodepoint ext buffer ch).2 - 1))
    else
      String.trimLoop ext buffer fuel (String.GetNextCodepoint ext buffer ch).2
        startSubstr endSubstr

/-- String::Trim(const std::string&) on the bytes of `s`; the buffer of
`s.c_str()` holds the bytes of `s` and the terminator. -/
def String.Trim (ext : TextExternals) (s : List Nat) : Option (List Nat) :=
  match String.trimLoop ext (s ++ [0]) (s ++ [0]).length 0 none none with
  | none => none
  | some (none, _) => some []
  | some (some startSubstr, endSubstr) =>
    some (((s ++ [0]).drop startSubstr).take (endSubstr.getD 0 - startSubstr + 1))

/-- The `while` loop of the in-place `String::Trim(utf8* str)`.  The state is
the pointer `ch` and `firstNonWhitespace`; the result is `firstNonWhitespace`,
`ch` and `nextCh` when the loop ends. -/
def String.trimInPlaceLoop (ext : TextExternals) (buffer : List Nat) :
    Nat → Nat → Option Nat → Option (Option Nat × Nat × Nat)
  | 0, _, _ => none
  | fuel + 1, ch, firstNonWhitespace =>
    if buffer.length ≤ ch then none
    else if (String.GetNextCodepoint ext buffer ch).1 = 0 then
      some (firstNonWhitespace, ch, (String.GetNextCodepoint ext buffer ch).2)
    else if (decide ((String.GetNextCodepoint ext buffer ch).1 ≤ ext.WCHAR_MAX)
        && !String.IsWhiteSpace ext (String.GetNextCodepoint ext buffer ch).1) = true then
      String.trimInPlaceLoop ext buffer fuel (String.GetNextCodepoint ext buffer ch).2
        (if firstNonWhitespace = none then some ch else firstNonWhitespace)
    else
      String.trimInPlaceLoop ext buffer fuel (String.GetNextCodepoint ext buffer ch).2
        firstNonWhitespace

/-- The call `std::memmove(str, str + src, n)` on a buffer: the first `n`
bytes become the `n` bytes stored from offset `src` on. -/
def memmoveToFront (buffer : List Nat) (src n : Nat) : List Nat :=
  (buffer.drop src).take n ++ buffer.drop n

/-- The in-place `String::Trim(utf8* str)` (the `DEBUG` assertion left out):
the buffer after the call. -/
def String.TrimInPlace (ext : TextExternals) (buffer : List Nat) : Option (List Nat) :=
  match String.trimInPlaceLoop ext buffer buffer.length 0 none with
  | none => none
  | some (firstNonWhitespace, ch, nextCh) =>
    if firstNonWhitespace ≠ none ∧ firstNonWhitespace ≠ some 0 then
      some ((memmoveToFront buffer (firstNonWhitespace.getD 0)
          ((nextCh - 1) - firstNonWhitespace.getD 0)).set
        ((nextCh - 1) - firstNonWhitespace.getD 0) 0)
    else
      some (buffer.set ch 0)

/-- The C string a buffer holds: its bytes up to the first 0. -/
def cString (buffer : List Nat) : List Nat :=
  buffer.takeWhile fun b => b ≠ 0

/-- The scan of `std::string::find`: the first position at or after `pos`
where `delimiter` starts in `rest`, the part of the string from `pos` on. -/
def findFrom (delimiter : List Nat) : List Nat → Nat → Option Nat
  | [], pos => if delimiter = [] then some pos else none
  | c :: rest, pos =>
    if delimiter.isPrefixOf (c :: rest) then some pos else findFrom delimiter rest (pos + 1)

/-- The call `s.find(delimiter, pos)`; `none` is `std::string::npos`. -/
def stdFind (s delimiter : List Nat) (pos : Nat) : Option Nat :=
  if pos ≤ s.length then findFrom delimiter (s.drop pos) pos else none

/-- The ways `String::Split` ends other than by returning: the exception
`std::invalid_argument`, and a loop that is not over after the allotted
rounds. -/
inductive SplitError where
  | invalid_argument
  | unfinished
deriving DecidableEq, Repr

/-- The `do ... while (nextIndex != SIZE_MAX)` loop of `String::Split`. -/
def String.splitLoop (s delimiter : List Nat) :
    Nat → Nat → List (List Nat) → Option (List (List Nat))
  | 0, _, _ => none
  | fuel + 1, index, results =>
    match stdFind s delimiter index with
    | none => some (results ++ [s.drop index])
    | some nextIndex =>
      String.splitLoop s delimiter fuel (nextIndex + delimiter.length)
        (results ++ [(s.drop index).take (nextIndex - index)])

/-- String::Split. -/
def String.Split (s delimiter : List Nat) : Except SplitError (List (List Nat)) :=
  if delimiter = [] then Except.error SplitError.invalid_argument
  else if s ≠ [] then
    match String.splitLoop s delimiter (s.length + 1) 0 [] with
    | some results => Except.ok results
    | none => Except.error SplitError.unfinished
  else Except.ok []

/-- One encoded codepoint of a text: its bytes and the codepoint they carry. -/
structure Glyph where
  bytes : List Nat
  codepoint : Nat
deriving DecidableEq, Repr

/-- The bytes of a text given as its sequence of encoded codepoints. -/
def textBytes (text : List Glyph) : List Nat :=
  text.flatMap fun g => g.bytes

/-- The decoder reads `text` as its sequence of codepoints: every glyph has at
least one byte and a codepoint other than 0, the decoder yields that codepoint
and steps over exactly the glyph's bytes whatever follows them, and it yields
codepoint 0 on the terminator. -/
def Decodes (ext : TextExternals) (text : List Glyph) : Prop :=
  (ext.utf8_get_next [0]).1 = 0 ∧
  ∀ g ∈ text, g.bytes ≠ [] ∧ g.codepoint ≠ 0 ∧
    ∀ rest, ext.utf8_get_next (g.bytes ++ rest) = (g.codepoint, g.bytes.length)

/-- Whether `Trim(const std::string&)` takes the glyph for whitespace: its
local `isWhiteSpace`. -/
def isWhiteSpaceGlyph (ext : TextExternals) (g : Glyph) : Bool :=
  decide (g.codepoint ≤ ext.WCHAR_MAX) && String.IsWhiteSpace ext g.codepoint

/-- A text without its leading and its trailing whitespace glyphs. -/
def trimmedText (ext : TextExternals) (text : List Glyph) : List Glyph :=
  (text.dropWhile (isWhiteSpaceGlyph ext)).rdropWhile (isWhiteSpaceGlyph ext)

/-- The pointers `startSubstr` and `endSubstr` after the loop of `Trim` has
read the glyphs of `text` stored from offset `offset` on. -/
def trimPointers (ext : TextExternals) :
    Nat → List Glyph → Option Nat → Option Nat → Option Nat × Option Nat
  | _, [], startSubstr, endSubstr => (startSubstr, endSubstr)
  | offset, g :: rest, startSubstr, endSubstr =>
    if isWhiteSpaceGlyph ext g = false then
      trimPointers ext (offset + g.bytes.length) rest
        (if startSubstr = none then some offset else startSubstr)
        (some (offset + g.bytes.length - 1))
    else trimPointers ext (offset + g.bytes.length) rest startSubstr endSubstr

/-- A sample decoder for one-, two- and three-byte UTF-8 forms, the ASCII
whitespace characters and the no-break space as `iswspace`, and a 32-bit
`wchar_t`. -/
def sampleTextExternals : TextExternals :=
  { utf8_get_next := fun bytes =>
      match bytes with
      | [] => (0, 1)
      | b :: rest =>
        if b < 0x80 then (b, 1)
        else if b / 0x20 = 6 then ((b % 0x20) * 0x40 + rest.getD 0 0 % 0x40, 2)
        else if b / 0x10 = 14 then
          ((b % 0x10) * 0x1000 + (rest.getD 0 0 % 0x40) * 0x40 + rest.getD 1 0 % 0x40, 3)
        else (0x20, 1)
    iswspace := fun c => decide (c = 0x20 ∨ (9 ≤ c ∧ c ≤ 13) ∨ c = 0xA0)
    WCHAR_MAX := 0x7FFFFFFF }

/-- A sample text for the sample decoder: a space, the two-byte letter U+00E9,
the letter `a`, the three-byte ideographic space U+3000 and a space. -/
def sampleText : List Glyph :=
  [⟨[0x20], 0x20⟩, ⟨[0xC3, 0xA9], 0xE9⟩, ⟨[0x61], 0x61⟩, ⟨[0xE3, 0x80, 0x80], 0x3000⟩,
    ⟨[0x20], 0x20⟩]

/-- The pieces of `s` cut at the leftmost, non-overlapping occurrences of
`delimiter`: either `s` holds no occurrence and is the only piece, or the first
piece runs up to the leftmost occurrence and the other pieces cut what follows
that occurrence. -/
inductive LeftmostCuts (delimiter : List Nat) : List Nat → List (List Nat) → Prop where
  | whole (s : List Nat) (hfree : ¬ delimiter <:+: s) : LeftmostCuts delimiter s [s]
  | cut (piece rest : List Nat) (pieces : List (List Nat))
      (hleft : ∀ j, j < piece.length → ¬ delimiter <+: (piece ++ (delimiter ++ rest)).drop j)
      (hrest : LeftmostCuts delimiter rest pieces) :
      LeftmostCuts delimiter (piece ++ (delimiter ++ rest)) (piece :: pieces)

/-! ## EndsWith and Set -/

/-- A character pointer: its address and the bytes stored from that address
on, through the end of the buffer it points into. -/
structure CharPtr where
  address : Nat
  bytes : List Nat
deriving DecidableEq, Repr

/-- The pointer comparison `a == b` on possibly null pointers. -/
def samePointer (a b : Option CharPtr) : Bool :=
  match a, b with
  | none, none => true
  | some x, some y => x.address == y.address
  | _, _ => false

/-- A `std::string_view`: `data()` (`none` for the null pointer) and `size()`. -/
structure StringView where
  data : Option CharPtr
  size : Nat
deriving DecidableEq, Repr

/-- The characters of a view: the first `size()` bytes stored at `data()`. -/
def StringView.chars (v : StringView) : List Nat :=
  match v.data with
  | none => []
  | some p => p.bytes.take v.size

/-- The call `str.substr(pos)` for `pos <= size()`: the view of the rest. -/
def StringView.substr (v : StringView) (pos : Nat) : StringView :=
  { data := v.data.map fun p => { address := p.address + pos, bytes := p.bytes.drop pos }
    size := v.size - pos }

/-- The C library `strcmp` on the bytes stored at two pointers: the comparison
runs to the first differing byte or to a terminating 0 and does not look at
any view size.  The end of the stored bytes counts as a terminator. -/
def strcmp : List Nat → List Nat → Int
  | [], [] => 0
  | [], b :: _ => if b = 0 then 0 else -1
  | a :: _, [] => if a = 0 then 0 else 1
  | a :: ra, b :: rb => if a ≠ b then (a : Int) - (b : Int) else if a = 0 then 0 else strcmp ra rb

/-- String::Equals(const utf8* a, const utf8* b, bool ignoreCase); the
platform comparison `_stricmp` is a parameter. -/
def String.Equals (stricmp : List Nat → List Nat → Int) (a b : Option CharPtr)
    (ignoreCase : Bool) : Bool :=
  if samePointer a b then true
  else
    match a, b with
    | some x, some y =>
      if ignoreCase then stricmp x.bytes y.bytes == 0 else strcmp x.bytes y.bytes == 0
    | _, _ => false

/-- String::EndsWith; the parameter `match` of the source is `matchView`. -/
def String.EndsWith (stricmp : List Nat → List Nat → Int) (str matchView : StringView)
    (ignoreCase : Bool) : Bool :=
  if str.size ≥ matchView.size then
    String.Equals stricmp (str.substr (str.size - matchView.size)).data matchView.data
      ignoreCase
  else false

/-- A write `*dst = value` into a buffer of known extent: it fails when `dst`
lies outside the buffer. -/
def writeByte (buffer : List Nat) (dst value : Nat) : Option (List Nat) :=
  if dst < buffer.length then some (buffer.set dst value) else none

/-- The `for` loop of `String::Set(buffer, bufferSize, src, srcSize)` with
`rounds` rounds left: the buffer and `dst` when the loop ends.  A read outside
the bytes stored at `src` and a write outside the buffer give no result. -/
def String.setLoop (src : List Nat) : Nat → List Nat → Nat → Nat → Option (List Nat × Nat)
  | 0, buffer, dst, _ => some (buffer, dst)
  | rounds + 1, buffer, dst, srcPos =>
    match src[srcPos]? with
    | none => none
    | some c =>
      match writeByte buffer dst c with
      | none => none
      | some written =>
        if c = 0 then some (written, dst + 1)
        else String.setLoop src rounds written (dst + 1) (srcPos + 1)

/-- The subtraction `n - 1` in `size_t` arithmetic, `size_t` taken as 64 bits
wide: for `n = 0` it wraps around to `SIZE_MAX`. -/
def sizeMinusOne (n : Nat) : Nat :=
  if n = 0 then 18446744073709551615 else n - 1

/-- String::Set(utf8* buffer, size_t bufferSize, const utf8* src, size_t
srcSize): the buffer after the call. -/
def String.Set (buffer : List Nat) (bufferSize : Nat) (src : List Nat) (srcSize : Nat) :
    Option (List Nat) :=
  match String.setLoop src (min (sizeMinusOne bufferSize) srcSize) buffer 0 0 with
  | none => none
  | some (written, dst) => writeByte written dst 0

/-- The view of the first five characters of the buffer "hello.txt". -/
def helloView : StringView :=
  { data := some ⟨100, [0x68, 0x65, 0x6C, 0x6C, 0x6F, 0x2E, 0x74, 0x78, 0x74, 0]⟩, size := 5 }

/-- The view of the whole C string "llo". -/
def lloView : StringView :=
  { data := some ⟨200, [0x6C, 0x6C, 0x6F, 0]⟩, size := 3 }

/-- The view of the whole C string "abc". -/
def abcView : StringView :=
  { data := some ⟨300, [0x61, 0x62, 0x63, 0]⟩, size := 3 }

/-- The default-constructed, empty view: `data()` is the null pointer. -/
def emptyView : StringView :=
  { data := none, size := 0 }

/-! ## Shared lemmas -/

theorem query_world (ext : Externals) (a : BannerRemoveAction) (w : World) :
    (a.Query ext w).2 = w := by
  unfold BannerRemoveAction.Query
  dsimp only
  split
  · rfl
  · split
    · rfl
    · split
      · rfl
      · split
        · rfl
        · split <;> rfl

theorem query_eq_execute_of_owned (ext : Externals) (a : BannerRemoveAction) (w : World)
    (hvalid : ext.LocationValid w a.base a._loc = true)
    (hbuild : ext.map_can_build_at w ⟨a._loc.x, a._loc.y, a._loc.z - 16⟩ = true) :
    (a.Query ext w).1 = (a.Execute ext w).1 := by
  unfold BannerRemoveAction.Query BannerRemoveAction.Execute
  simp only [hvalid, hbuild, Bool.not_true, Bool.or_self, Bool.false_eq_true, if_false]
  split
  · rfl
  · split
    · rfl
    · split
      · rfl
      · split <;> rfl

theorem execute_failure_world (ext : Externals) (a : BannerRemoveAction) (w : World)
    (h : (a.Execute ext w).1.Error ≠ Status.Ok) : (a.Execute ext w).2 = w := by
  cases hget : a.GetBannerElementAt ext w with
  | none => simp [BannerRemoveAction.Execute, hget]
  | some p =>
    obtain ⟨i, e⟩ := p
    by_cases hidx : ext.MAX_BANNERS ≤ e.index ∨ e.index = ext.BANNER_INDEX_NULL
    · simp [BannerRemoveAction.Execute, hget, hidx]
    · cases hb : GetBanner w e.index with
      | none => simp [BannerRemoveAction.Execute, hget, hidx, hb]
      | some b =>
        exfalso
        apply h
        cases hentry : ext.get_banner_entry b.type <;>
          simp [BannerRemoveAction.Execute, hget, hidx, hb, hentry, MakeResult]

theorem bannerMatch_fields (ext : Externals) (a : BannerRemoveAction) (e : TileElement)
    (h : bannerMatch ext a e = true) :
    e.type = ext.TILE_ELEMENT_TYPE_BANNER ∧ e.baseZ = a._loc.z ∧
      e.position = a._loc.direction := by
  unfold bannerMatch at h
  by_cases h1 : e.type = ext.TILE_ELEMENT_TYPE_BANNER
  · by_cases h2 : e.baseZ = a._loc.z
    · by_cases h3 : e.position = a._loc.direction
      · exact ⟨h1, h2, h3⟩
      · simp [h1, h2, h3] at h
    · simp [h1, h2] at h
  · simp [h1] at h

theorem scanTile_none_of_stack (ext : Externals) (a : BannerRemoveAction)
    (l : List TileElement) :
    ∀ i, (∀ e ∈ tileStack l, bannerMatch ext a e = false) → scanTile ext a i l = none := by
  induction l with
  | nil => intro i _; rfl
  | cons e rest ih =>
    intro i h
    have he : bannerMatch ext a e = false := by
      apply h
      unfold tileStack
      split <;> simp
    unfold scanTile
    simp only [he, Bool.false_eq_true, if_false]
    by_cases hl : e.lastForTile = true
    · simp [hl]
    · simp only [hl, if_false]
      apply ih
      intro e' he'
      apply h
      unfold tileStack
      simp [hl, he']

theorem scanTile_none_of_all (ext : Externals) (a : BannerRemoveAction)
    (l : List TileElement) :
    ∀ i, (∀ e ∈ l, bannerMatch ext a e = false) → scanTile ext a i l = none := by
  induction l with
  | nil => intro i _; rfl
  | cons e rest ih =>
    intro i h
    have he : bannerMatch ext a e = false := h e (List.mem_cons_self _ _)
    unfold scanTile
    simp only [he, Bool.false_eq_true, if_false]
    by_cases hl : e.lastForTile = true
    · simp [hl]
    · simp only [hl, if_false]
      exact ih _ (fun e' he' => h e' (List.mem_cons_of_mem _ he'))

theorem scanTile_index (ext : Externals) (a : BannerRemoveAction) (l : List TileElement) :
    ∀ i j e, scanTile ext a i l = some (j, e) →
      i ≤ j ∧ l[j - i]? = some e ∧ bannerMatch ext a e = true := by
  induction l with
  | nil => intro i j e h; simp [scanTile] at h
  | cons x rest ih =>
    intro i j e h
    unfold scanTile at h
    by_cases hm : bannerMatch ext a x = true
    · simp only [hm, if_true, Option.some.injEq, Prod.mk.injEq] at h
      obtain ⟨h1, h2⟩ := h
      subst h1 h2
      simp [hm]
    · simp only [hm, Bool.false_eq_true, if_false] at h
      by_cases hl : x.lastForTile = true
      · simp [hl] at h
      · simp only [hl, Bool.false_eq_true, if_false] at h
        obtain ⟨h1, h2, h3⟩ := ih (i + 1) j e h
        refine ⟨by omega, ?_, h3⟩
        have hji : j - i = (j - (i + 1)) + 1 := by omega
        rw [hji, List.getElem?_cons_succ]
        exact h2

theorem getD_modify_self (f : List TileElement → List TileElement)
    (L : List (List TileElement)) (t : Nat) :
    (L.modify f t).getD t [] = if t < L.length then f (L.getD t []) else [] := by
  simp only [List.getD_eq_getElem?_getD, List.getElem?_modify_eq]
  by_cases ht : t < L.length
  · simp [ht, List.getElem?_eq_getElem ht]
  · simp [ht, List.getElem?_eq_none (Nat.le_of_not_lt ht)]

theorem execute_ok_world (ext : Externals) (a : BannerRemoveAction) (w : World)
    (h : (a.Execute ext w).1.Error = Status.Ok) :
    ∃ i e, a.GetBannerElementAt ext w = some (i, e) ∧
      (a.Execute ext w).2 =
        TileElement.Remove ext
          (map_invalidate_tile_zoom1 (tile_element_remove_banner_entry w e) a._loc a._loc.z
            (a._loc.z + 32))
          a._loc.x a._loc.y i := by
  cases hget : a.GetBannerElementAt ext w with
  | none => simp [BannerRemoveAction.Execute, hget, MakeResultError] at h
  | some p =>
    obtain ⟨i, e⟩ := p
    by_cases hidx : ext.MAX_BANNERS ≤ e.index ∨ e.index = ext.BANNER_INDEX_NULL
    · simp [BannerRemoveAction.Execute, hget, hidx, MakeResultError] at h
    · cases hb : GetBanner w e.index with
      | none => simp [BannerRemoveAction.Execute, hget, hidx, hb, MakeResultError] at h
      | some b =>
        refine ⟨i, e, rfl, ?_⟩
        cases hentry : ext.get_banner_entry b.type <;>
          simp only [BannerRemoveAction.Execute, hget, hidx, hb, hentry, if_false]

theorem execute_of_lookup_none (ext : Externals) (a : BannerRemoveAction) (w : World)
    (h : a.GetBannerElementAt ext w = none) :
    (a.Execute ext w).1.Error = Status.InvalidParameters := by
  simp [BannerRemoveAction.Execute, h, MakeResultError]

/-! ## Claims on Query and Execute -/

/-- C1: `Execute` does not repeat the ownership check of `Query`.  For the
banner on the tile at (0, 0) of the sample park, outside the owned land,
`Query` fails with `NotOwned` while `Execute` succeeds and takes the banner
element off the tile and releases its banner record. -/
theorem execute_omits_ownership_check :
    sampleExternals.map_can_build_at sampleWorld ⟨0, 0, 48 - 16⟩ = false ∧
    ((removeBannerAt 0 0 0).Query sampleExternals sampleWorld).1.Error = Status.NotOwned ∧
    ((removeBannerAt 0 0 0).Execute sampleExternals sampleWorld).1.Error = Status.Ok ∧
    sampleWorld.tiles.getD 0 [] = [surfaceElement, bannerElementAt 0 1 true] ∧
    ((removeBannerAt 0 0 0).Execute sampleExternals sampleWorld).2.tiles.getD 0 []
      = [surfaceElement] ∧
    GetBanner sampleWorld 1 = some ⟨0⟩ ∧
    GetBanner ((removeBannerAt 0 0 0).Execute sampleExternals sampleWorld).2 1 = none := by
  decide

/-- C2: when the location is valid and buildable 16 units below `z`, `Query`
and `Execute` on the same world return the same status, the same cost and the
same position; this covers every world that holds a matching banner element. -/
theorem query_execute_agree (ext : Externals) (a : BannerRemoveAction) (w : World)
    (hvalid : ext.LocationValid w a.base a._loc = true)
    (hbuild : ext.map_can_build_at w ⟨a._loc.x, a._loc.y, a._loc.z - 16⟩ = true) :
    (a.Query ext w).1.Error = (a.Execute ext w).1.Error ∧
    (a.Query ext w).1.Cost = (a.Execute ext w).1.Cost ∧
    (a.Query ext w).1.Position = (a.Execute ext w).1.Position := by
  rw [query_eq_execute_of_owned ext a w hvalid hbuild]
  exact ⟨rfl, rfl, rfl⟩

/-- Witness of C2 on the sample park: the banner at (160, 160, 48) facing 0. -/
theorem query_execute_agree_witness :
    sampleExternals.LocationValid sampleWorld (removeBannerAt 160 160 0).base
      (removeBannerAt 160 160 0)._loc = true ∧
    sampleExternals.map_can_build_at sampleWorld ⟨160, 160, 48 - 16⟩ = true ∧
    ((removeBannerAt 160 160 0).Query sampleExternals sampleWorld).1.Error
      = ((removeBannerAt 160 160 0).Execute sampleExternals sampleWorld).1.Error ∧
    ((removeBannerAt 160 160 0).Query sampleExternals sampleWorld).1.Cost
      = ((removeBannerAt 160 160 0).Execute sampleExternals sampleWorld).1.Cost ∧
    ((removeBannerAt 160 160 0).Query sampleExternals sampleWorld).1.Position
      = ((removeBannerAt 160 160 0).Execute sampleExternals sampleWorld).1.Position :=
  ⟨by decide, by decide,
    query_execute_agree sampleExternals (removeBannerAt 160 160 0) sampleWorld
      (by decide) (by decide)⟩

/-- C3 as stated fails: on the tile at (0, 0) of the sample park no banner
faces direction 2, yet `Query` answers `NotOwned`, not `InvalidParameters`,
because the land is not owned. -/
theorem query_not_owned_without_banner :
    (∀ e ∈ tileStack (map_get_first_element_at sampleExternals sampleWorld
        (removeBannerAt 0 0 2)._loc.x (removeBannerAt 0 0 2)._loc.y),
      ¬ (e.type = sampleExternals.TILE_ELEMENT_TYPE_BANNER ∧
          e.baseZ = (removeBannerAt 0 0 2)._loc.z ∧
          e.position = (removeBannerAt 0 0 2)._loc.direction)) ∧
    ((removeBannerAt 0 0 2).Query sampleExternals sampleWorld).1.Error
      ≠ Status.InvalidParameters := by
  decide

/-- C3, amended: when the location is valid and buildable 16 units below `z`
and no element of the tile is a banner with base height `z` and orientation
equal to the direction, `Query` and `Execute` both return `InvalidParameters`
and both leave the world as it was. -/
theorem no_banner_invalid_parameters (ext : Externals) (a : BannerRemoveAction) (w : World)
    (hvalid : ext.LocationValid w a.base a._loc = true)
    (hbuild : ext.map_can_build_at w ⟨a._loc.x, a._loc.y, a._loc.z - 16⟩ = true)
    (hnone : ∀ e ∈ tileStack (map_get_first_element_at ext w a._loc.x a._loc.y),
      ¬ (e.type = ext.TILE_ELEMENT_TYPE_BANNER ∧ e.baseZ = a._loc.z ∧
          e.position = a._loc.direction)) :
    (a.Query ext w).1.Error = Status.InvalidParameters ∧
    (a.Execute ext w).1.Error = Status.InvalidParameters ∧
    (a.Query ext w).2 = w ∧ (a.Execute ext w).2 = w := by
  have hget : a.GetBannerElementAt ext w = none := by
    unfold BannerRemoveAction.GetBannerElementAt
    apply scanTile_none_of_stack
    intro e he
    cases hm : bannerMatch ext a e with
    | false => rfl
    | true => exact absurd (bannerMatch_fields ext a e hm) (hnone e he)
  have hexec : (a.Execute ext w).1.Error = Status.InvalidParameters :=
    execute_of_lookup_none ext a w hget
  refine ⟨?_, hexec, query_world ext a w, ?_⟩
  · rw [query_eq_execute_of_owned ext a w hvalid hbuild]
    exact hexec
  · apply execute_failure_world
    rw [hexec]
    decide

/-- Witness of C3 (amended) on the sample park: direction 2 at (160, 160, 48). -/
theorem no_banner_invalid_parameters_witness :
    ((removeBannerAt 160 160 2).Query sampleExternals sampleWorld).1.Error
      = Status.InvalidParameters ∧
    ((removeBannerAt 160 160 2).Execute sampleExternals sampleWorld).1.Error
      = Status.InvalidParameters ∧
    ((removeBannerAt 160 160 2).Query sampleExternals sampleWorld).2 = sampleWorld ∧
    ((removeBannerAt 160 160 2).Execute sampleExternals sampleWorld).2 = sampleWorld :=
  no_banner_invalid_parameters sampleExternals (removeBannerAt 160 160 2) sampleWorld
    (by decide) (by decide) (by decide)

/-- C4: when the location is invalid or the map is not buildable 16 units
below `z`, `Query` returns the `NotOwned` result and the untouched world
whatever the tile holds: the answer does not mention the element stack. -/
theorem query_not_owned (ext : Externals) (a : BannerRemoveAction) (w : World)
    (h : ext.LocationValid w a.base a._loc = false ∨
      ext.map_can_build_at w ⟨a._loc.x, a._loc.y, a._loc.z - 16⟩ = false) :
    a.Query ext w =
      (MakeResultError Status.NotOwned StringId.STR_CANT_REMOVE_THIS
        StringId.STR_LAND_NOT_OWNED_BY_PARK, w) ∧
    (a.Query ext w).1.Error = Status.NotOwned := by
  have hq : a.Query ext w =
      (MakeResultError Status.NotOwned StringId.STR_CANT_REMOVE_THIS
        StringId.STR_LAND_NOT_OWNED_BY_PARK, w) := by
    unfold BannerRemoveAction.Query
    rcases h with h | h <;> simp [h]
  rw [hq]
  exact ⟨rfl, rfl⟩

/-- Witness of C4 on the sample park: the banner on the unowned tile at (0, 0). -/
theorem query_not_owned_witness :
    (sampleExternals.LocationValid sampleWorld (removeBannerAt 0 0 0).base
        (removeBannerAt 0 0 0)._loc = false ∨
      sampleExternals.map_can_build_at sampleWorld ⟨0, 0, 48 - 16⟩ = false) ∧
    ((removeBannerAt 0 0 0).Query sampleExternals sampleWorld =
      (MakeResultError Status.NotOwned StringId.STR_CANT_REMOVE_THIS
        StringId.STR_LAND_NOT_OWNED_BY_PARK, sampleWorld) ∧
    ((removeBannerAt 0 0 0).Query sampleExternals sampleWorld).1.Error = Status.NotOwned) :=
  ⟨by decide, query_not_owned sampleExternals (removeBannerAt 0 0 0) sampleWorld (by decide)⟩

/-- C5: `Query` returns `Ok` exactly when the location is valid, the map is
buildable 16 units below `z`, the lookup finds an element, the element's
banner index is below `MAX_BANNERS` and is not `BANNER_INDEX_NULL`, and the
index resolves to a banner record; any other status is `NotOwned` or
`InvalidParameters`. -/
theorem query_ok_iff (ext : Externals) (a : BannerRemoveAction) (w : World) :
    ((a.Query ext w).1.Error = Status.Ok ↔
      (ext.LocationValid w a.base a._loc = true ∧
        ext.map_can_build_at w ⟨a._loc.x, a._loc.y, a._loc.z - 16⟩ = true ∧
        ∃ i e, a.GetBannerElementAt ext w = some (i, e) ∧
          e.index < ext.MAX_BANNERS ∧ e.index ≠ ext.BANNER_INDEX_NULL ∧
          ∃ b, GetBanner w e.index = some b)) ∧
    ((a.Query ext w).1.Error ≠ Status.Ok →
      (a.Query ext w).1.Error = Status.NotOwned ∨
        (a.Query ext w).1.Error = Status.InvalidParameters) := by
  cases hv : ext.LocationValid w a.base a._loc with
  | false => simp [BannerRemoveAction.Query, hv, MakeResultError]
  | true =>
    cases hm : ext.map_can_build_at w ⟨a._loc.x, a._loc.y, a._loc.z - 16⟩ with
    | false => simp [BannerRemoveAction.Query, hv, hm, MakeResultError]
    | true =>
      cases hget : a.GetBannerElementAt ext w with
      | none => simp [BannerRemoveAction.Query, hv, hm, hget, MakeResultError]
      | some p =>
        obtain ⟨i, e⟩ := p
        by_cases hidx : ext.MAX_BANNERS ≤ e.index ∨ e.index = ext.BANNER_INDEX_NULL
        · have hno : ¬ (e.index < ext.MAX_BANNERS ∧ e.index ≠ ext.BANNER_INDEX_NULL) := by
            rintro ⟨h1, h2⟩
            rcases hidx with h | h
            · omega
            · exact h2 h
          simp [BannerRemoveAction.Query, hv, hm, hget, hidx, MakeResultError]
          intro h1 h2
          exact absurd ⟨h1, h2⟩ hno
        · have hyes : e.index < ext.MAX_BANNERS ∧ e.index ≠ ext.BANNER_INDEX_NULL := by
            constructor
            · by_contra hc
              exact hidx (Or.inl (by omega))
            · intro hc
              exact hidx (Or.inr hc)
          cases hb : GetBanner w e.index with
          | none =>
            simp [BannerRemoveAction.Query, hv, hm, hget, hidx, hb, MakeResultError]
          | some b =>
            have hok : (a.Query ext w).1.Error = Status.Ok := by
              cases hentry : ext.get_banner_entry b.type <;>
                simp only [BannerRemoveAction.Query, hv, hm, hget, hidx, hb, hentry,
                  Bool.not_true, Bool.or_self, Bool.false_eq_true, if_false, MakeResult]
            rw [hok]
            exact ⟨⟨fun _ => ⟨rfl, rfl, i, e, rfl, hyes.1, hyes.2, b, hb⟩, fun _ => rfl⟩,
              fun h => absurd rfl h⟩

/-- C6: when `Query` or `Execute` returns a result `r` with status `Ok`, the
lookup found an element whose index resolves to a banner record `b`; if the
banner type has a scenery entry of price `p` then `r.Cost = -((3 * p) / 4)`
with the division truncating toward zero, and if it has no entry then
`r.Cost = 0`. -/
theorem removal_cost (ext : Externals) (a : BannerRemoveAction) (w : World) (r : Result)
    (hr : r = (a.Query ext w).1 ∨ r = (a.Execute ext w).1)
    (hok : r.Error = Status.Ok) :
    ∃ i e b, a.GetBannerElementAt ext w = some (i, e) ∧ GetBanner w e.index = some b ∧
      (∀ entry, ext.get_banner_entry b.type = some entry →
        r.Cost = -((3 * entry.price).tdiv 4)) ∧
      (ext.get_banner_entry b.type = none → r.Cost = 0) := by
  have hexec : ∀ r', r' = (a.Execute ext w).1 → r'.Error = Status.Ok →
      ∃ i e b, a.GetBannerElementAt ext w = some (i, e) ∧ GetBanner w e.index = some b ∧
        (∀ entry, ext.get_banner_entry b.type = some entry →
          r'.Cost = -((3 * entry.price).tdiv 4)) ∧
        (ext.get_banner_entry b.type = none → r'.Cost = 0) := by
    intro r' hr' hok'
    subst hr'
    cases hget : a.GetBannerElementAt ext w with
    | none => simp [BannerRemoveAction.Execute, hget, MakeResultError] at hok'
    | some p =>
      obtain ⟨i, e⟩ := p
      by_cases hidx : ext.MAX_BANNERS ≤ e.index ∨ e.index = ext.BANNER_INDEX_NULL
      · simp [BannerRemoveAction.Execute, hget, hidx, MakeResultError] at hok'
      · cases hb : GetBanner w e.index with
        | none => simp [BannerRemoveAction.Execute, hget, hidx, hb, MakeResultError] at hok'
        | some b =>
          refine ⟨i, e, b, rfl, hb, ?_, ?_⟩
          · intro entry hentry
            simp [BannerRemoveAction.Execute, hget, hidx, hb, hentry, mul_comm]
          · intro hentry
            simp [BannerRemoveAction.Execute, hget, hidx, hb, hentry, MakeResult]
  rcases hr with hr | hr
  · by_cases hown : ext.LocationValid w a.base a._loc = true ∧
        ext.map_can_build_at w ⟨a._loc.x, a._loc.y, a._loc.z - 16⟩ = true
    · exact hexec r (by rw [hr, query_eq_execute_of_owned ext a w hown.1 hown.2]) hok
    · exfalso
      subst hr
      have hq := (query_ok_iff ext a w).1.mp hok
      exact hown ⟨hq.1, hq.2.1⟩
  · exact hexec r hr hok

/-- Witness of C6: the scenario of a banner at (160, 160, 48) facing 0 whose
type has price 100; the cost reported by `Query` is -75. -/
theorem removal_cost_witness :
    ((removeBannerAt 160 160 0).Query sampleExternals sampleWorld).1.Error = Status.Ok ∧
    sampleExternals.get_banner_entry 0 = some ⟨100⟩ ∧
    ((removeBannerAt 160 160 0).Query sampleExternals sampleWorld).1.Cost = -75 ∧
    ∃ i e b, (removeBannerAt 160 160 0).GetBannerElementAt sampleExternals sampleWorld
        = some (i, e) ∧ GetBanner sampleWorld e.index = some b ∧
      (∀ entry, sampleExternals.get_banner_entry b.type = some entry →
        ((removeBannerAt 160 160 0).Query sampleExternals sampleWorld).1.Cost
          = -((3 * entry.price).tdiv 4)) ∧
      (sampleExternals.get_banner_entry b.type = none →
        ((removeBannerAt 160 160 0).Query sampleExternals sampleWorld).1.Cost = 0) :=
  ⟨by decide, by decide, by decide,
    removal_cost sampleExternals (removeBannerAt 160 160 0) sampleWorld _ (Or.inl rfl)
      (by decide)⟩

/-- C7: `Execute` is atomic: when it returns a status other than `Ok`, the
world (tile element stacks, banner records, invalidation requests) is exactly
the world before the call. -/
theorem execute_atomic (ext : Externals) (a : BannerRemoveAction) (w : World)
    (h : (a.Execute ext w).1.Error ≠ Status.Ok) :
    (a.Execute ext w).2 = w ∧ (a.Execute ext w).2.tiles = w.tiles ∧
      (a.Execute ext w).2.banners = w.banners := by
  rw [execute_failure_world ext a w h]
  exact ⟨rfl, rfl, rfl⟩

/-- Witness of C7 on the sample park: no banner faces direction 2. -/
theorem execute_atomic_witness :
    ((removeBannerAt 160 160 2).Execute sampleExternals sampleWorld).1.Error ≠ Status.Ok ∧
    (((removeBannerAt 160 160 2).Execute sampleExternals sampleWorld).2 = sampleWorld ∧
      ((removeBannerAt 160 160 2).Execute sampleExternals sampleWorld).2.tiles
        = sampleWorld.tiles ∧
      ((removeBannerAt 160 160 2).Execute sampleExternals sampleWorld).2.banners
        = sampleWorld.banners) :=
  ⟨by decide, execute_atomic sampleExternals (removeBannerAt 160 160 2) sampleWorld (by decide)⟩

/-- C9: `Query` never mutates the world: whether it succeeds or fails, the
tile element stacks and the banner records after the call are those before
it. -/
theorem query_never_mutates (ext : Externals) (a : BannerRemoveAction) (w : World) :
    (a.Query ext w).2 = w ∧ (a.Query ext w).2.tiles = w.tiles ∧
      (a.Query ext w).2.banners = w.banners := by
  rw [query_world ext a w]
  exact ⟨rfl, rfl, rfl⟩

/-- C8 as stated fails: on a tile that holds two banners with the same height
and facing, the first `Execute` removes the earlier one and the second
`Execute` finds the other and succeeds again. -/
theorem second_execute_ok_on_twin_banners :
    ((removeBannerAt 160 160 0).Execute sampleExternals twinBannerWorld).1.Error = Status.Ok ∧
    ((removeBannerAt 160 160 0).Execute sampleExternals
        ((removeBannerAt 160 160 0).Execute sampleExternals twinBannerWorld).2).1.Error
      ≠ Status.InvalidParameters := by
  decide

/-- C8, amended: when `Execute` returns `Ok` and, apart from the element the
lookup returned, no element stored for the tile matches the action, a second
`Execute` of the same action on the resulting world returns
`InvalidParameters`. -/
theorem second_execute_invalid (ext : Externals) (a : BannerRemoveAction) (w : World)
    (hok : (a.Execute ext w).1.Error = Status.Ok)
    (hone : ∀ i e, a.GetBannerElementAt ext w = some (i, e) →
      ∀ e0 ∈ (map_get_first_element_at ext w a._loc.x a._loc.y).eraseIdx i,
        bannerMatch ext a e0 = false) :
    (a.Execute ext (a.Execute ext w).2).1.Error = Status.InvalidParameters := by
  obtain ⟨i, e, hget, hw⟩ := execute_ok_world ext a w hok
  have hrest := hone i e hget
  have hget2 : a.GetBannerElementAt ext (a.Execute ext w).2 = none := by
    rw [hw]
    unfold BannerRemoveAction.GetBannerElementAt at hget ⊢
    unfold map_get_first_element_at at hget hrest ⊢
    unfold TileElement.Remove
    cases ht : ext.tilePointer a._loc.x a._loc.y with
    | none => rfl
    | some t =>
      simp only [ht] at hget hrest ⊢
      apply scanTile_none_of_all
      intro e1 he1
      have htiles : (map_invalidate_tile_zoom1 (tile_element_remove_banner_entry w e) a._loc
          a._loc.z (a._loc.z + 32)).tiles = w.tiles := rfl
      rw [htiles, getD_modify_self] at he1
      by_cases hlen : t < w.tiles.length
      · simp only [hlen, if_true] at he1
        exact hrest e1 he1
      · simp [hlen] at he1
  exact execute_of_lookup_none ext a _ hget2

/-- Witness of C8 (amended) on the sample park: the single banner at
(160, 160, 48) facing 0. -/
theorem second_execute_invalid_witness :
    ((removeBannerAt 160 160 0).Execute sampleExternals sampleWorld).1.Error = Status.Ok ∧
    ((removeBannerAt 160 160 0).Execute sampleExternals
        ((removeBannerAt 160 160 0).Execute sampleExternals sampleWorld).2).1.Error
      = Status.InvalidParameters :=
  ⟨by decide,
    second_execute_invalid sampleExternals (removeBannerAt 160 160 0) sampleWorld (by decide)
      (by
        intro i e h
        have hi : (removeBannerAt 160 160 0).GetBannerElementAt sampleExternals sampleWorld
            = some (1, bannerElementAt 0 0 true) := by decide
        rw [hi] at h
        simp only [Option.some.injEq, Prod.mk.injEq] at h
        obtain ⟨h1, _⟩ := h
        subst h1
        decide)⟩

/-! ## Claims on serialisation -/

theorem serialise_write (a : BannerRemoveAction) :
    a.Serialise { isSaving := true, fields := [] } =
      some ({ isSaving := true,
              fields := [Field.unsignedField a.base.type, Field.unsignedField a.base.flags,
                Field.signedField a.base.playerId, Field.signedField a._loc.x,
                Field.signedField a._loc.y, Field.signedField a._loc.z,
                Field.unsignedField a._loc.direction] }, a) := by
  simp [BannerRemoveAction.Serialise, GameAction.Serialise, DataSerialiser.visitCoordsXYZD,
    DataSerialiser.visitSigned, DataSerialiser.visitUnsigned]

theorem serialise_read (a fresh : BannerRemoveAction) :
    fresh.Serialise
        { isSaving := false,
          fields := [Field.unsignedField a.base.type, Field.unsignedField a.base.flags,
            Field.signedField a.base.playerId, Field.signedField a._loc.x,
            Field.signedField a._loc.y, Field.signedField a._loc.z,
            Field.unsignedField a._loc.direction] } =
      some ({ isSaving := false, fields := [] }, a) := by
  simp [BannerRemoveAction.Serialise, GameAction.Serialise, DataSerialiser.visitCoordsXYZD,
    DataSerialiser.visitSigned, DataSerialiser.visitUnsigned]

theorem written_injective (a b : BannerRemoveAction) (h : b.written = a.written) : b = a := by
  unfold BannerRemoveAction.written at h
  rw [serialise_write a, serialise_write b] at h
  simp only [Option.map_some', Option.some.injEq, List.cons.injEq, Field.unsignedField.injEq,
    Field.signedField.injEq, and_true] at h
  obtain ⟨h1, h2, h3, h4, h5, h6, h7⟩ := h
  cases a with
  | mk abase aloc =>
    cases b with
    | mk bbase bloc =>
      cases abase
      cases bbase
      cases aloc
      cases bloc
      simp_all

/-- C10: serialisation round trip.  `Serialise` in write mode on an empty
stream succeeds and leaves the action as it is; `Serialise` in read mode on
the written fields, applied to any fresh instance, consumes the whole stream
and yields a copy with the same location and base envelope, so `Query` and
`Execute` on the copy and on the original return the same result for every
world.  Every field these read is transmitted: two actions that write the
same fields have the same `Query` and `Execute` results. -/
theorem serialise_round_trip (a fresh : BannerRemoveAction) :
    ∃ fields copy,
      a.Serialise { isSaving := true, fields := [] }
        = some ({ isSaving := true, fields := fields }, a) ∧
      fresh.Serialise { isSaving := false, fields := fields }
        = some ({ isSaving := false, fields := [] }, copy) ∧
      copy._loc = a._loc ∧ copy.base = a.base ∧
      (∀ ext w, copy.Query ext w = a.Query ext w ∧ copy.Execute ext w = a.Execute ext w) ∧
      (∀ b : BannerRemoveAction, b.written = a.written →
        ∀ ext w, b.Query ext w = a.Query ext w ∧ b.Execute ext w = a.Execute ext w) := by
  refine ⟨_, a, serialise_write a, serialise_read a fresh, rfl, rfl,
    fun _ _ => ⟨rfl, rfl⟩, ?_⟩
  intro b hb ext w
  rw [written_injective a b hb]
  exact ⟨rfl, rfl⟩

/-! ## Lemmas on the lookup -/

theorem bannerMatch_iff (ext : Externals) (a : BannerRemoveAction) (e : TileElement) :
    bannerMatch ext a e = true ↔ IsSoughtBanner ext a e := by
  unfold bannerMatch IsSoughtBanner
  by_cases h1 : e.type = ext.TILE_ELEMENT_TYPE_BANNER <;>
    by_cases h2 : e.baseZ = a._loc.z <;>
    by_cases h3 : e.position = a._loc.direction <;>
    by_cases h4 : e.ghost = true <;>
    by_cases h5 : a.GetFlags &&& ext.GAME_COMMAND_FLAG_GHOST = 0 <;>
    simp [h1, h2, h3, h4, h5]

theorem scanTile_tileStack (ext : Externals) (a : BannerRemoveAction) (l : List TileElement) :
    ∀ i, scanTile ext a i (tileStack l) = scanTile ext a i l := by
  induction l with
  | nil => intro i; rfl
  | cons x rest ih =>
    intro i
    by_cases hl : x.lastForTile = true
    · simp [tileStack, scanTile, hl]
    · simp [tileStack, scanTile, hl, ih]

theorem scanTile_some_of_stack (ext : Externals) (a : BannerRemoveAction)
    (l : List TileElement) :
    ∀ i, (∃ e ∈ tileStack l, bannerMatch ext a e = true) →
      ∃ p, scanTile ext a i l = some p := by
  induction l with
  | nil => intro i h; simp [tileStack] at h
  | cons x rest ih =>
    intro i h
    by_cases hm : bannerMatch ext a x = true
    · exact ⟨(i, x), by simp [scanTile, hm]⟩
    · by_cases hl : x.lastForTile = true
      · exfalso
        obtain ⟨e, he, hme⟩ := h
        simp only [tileStack, hl, if_true, List.mem_singleton] at he
        rw [he] at hme
        exact hm hme
      · obtain ⟨e, he, hme⟩ := h
        simp only [tileStack, hl, Bool.false_eq_true, if_false, List.mem_cons] at he
        rcases he with he | he
        · rw [he] at hme
          exact absurd hme hm
        · obtain ⟨p, hp⟩ := ih (i + 1) ⟨e, he, hme⟩
          exact ⟨p, by simp [scanTile, hm, hl, hp]⟩

theorem scanTile_before (ext : Externals) (a : BannerRemoveAction) (l : List TileElement) :
    ∀ i j e, scanTile ext a i l = some (j, e) →
      ∀ k e0, k < j - i → l[k]? = some e0 →
        bannerMatch ext a e0 = false ∧ e0.lastForTile = false := by
  induction l with
  | nil => intro i j e h; simp [scanTile] at h
  | cons x rest ih =>
    intro i j e h k e0 hk hget
    unfold scanTile at h
    by_cases hm : bannerMatch ext a x = true
    · simp only [hm, if_true, Option.some.injEq, Prod.mk.injEq] at h
      omega
    · simp only [hm, Bool.false_eq_true, if_false] at h
      by_cases hl : x.lastForTile = true
      · simp [hl] at h
      · simp only [hl, Bool.false_eq_true, if_false] at h
        cases k with
        | zero =>
          simp only [List.getElem?_cons_zero, Option.some.injEq] at hget
          subst hget
          exact ⟨by simpa using hm, by simpa using hl⟩
        | succ k =>
          simp only [List.getElem?_cons_succ] at hget
          have hle := (scanTile_index ext a rest (i + 1) j e h).1
          exact ih (i + 1) j e h k e0 (by omega) hget

theorem scanTile_append_junk (ext : Externals) (a : BannerRemoveAction)
    (pre : List TileElement) (last : TileElement) (junk : List TileElement)
    (hl : last.lastForTile = true) :
    ∀ i, scanTile ext a i (pre ++ last :: junk) = scanTile ext a i (pre ++ [last]) := by
  induction pre with
  | nil => intro i; simp [scanTile, hl]
  | cons x rest ih =>
    intro i
    have h := ih (i + 1)
    simp only [List.cons_append, scanTile, List.append_eq, h]

theorem getBanner_released (w : World) (e : TileElement) (idx : Nat) (h : idx = e.index) :
    GetBanner (tile_element_remove_banner_entry w e) idx = none := by
  subst h
  unfold GetBanner tile_element_remove_banner_entry
  by_cases hlt : e.index < w.banners.length
  · simp [List.getElem?_set, hlt]
  · simp [List.getElem?_set, hlt]

/-! ## Further claims on Query, Execute and the lookup -/

/-- C11: when the element found by the lookup has a banner index that is at
least `MAX_BANNERS` or equal to `BANNER_INDEX_NULL`, or that resolves to no
banner record, `Execute` returns `InvalidParameters`, `Query` returns
`InvalidParameters` whenever the ownership check passes, and neither call
removes the element: the world is handed back unchanged. -/
theorem bad_index_invalid_parameters (ext : Externals) (a : BannerRemoveAction) (w : World)
    (i : Nat) (e : TileElement) (hget : a.GetBannerElementAt ext w = some (i, e))
    (hbad : ext.MAX_BANNERS ≤ e.index ∨ e.index = ext.BANNER_INDEX_NULL ∨
      GetBanner w e.index = none) :
    (a.Execute ext w).1.Error = Status.InvalidParameters ∧
    (ext.LocationValid w a.base a._loc = true →
      ext.map_can_build_at w ⟨a._loc.x, a._loc.y, a._loc.z - 16⟩ = true →
      (a.Query ext w).1.Error = Status.InvalidParameters) ∧
    (a.Execute ext w).2 = w ∧ (a.Query ext w).2 = w ∧
    a.GetBannerElementAt ext (a.Execute ext w).2 = some (i, e) := by
  have hexec : (a.Execute ext w).1.Error = Status.InvalidParameters := by
    by_cases hidx : ext.MAX_BANNERS ≤ e.index ∨ e.index = ext.BANNER_INDEX_NULL
    · simp [BannerRemoveAction.Execute, hget, hidx, MakeResultError]
    · have hb : GetBanner w e.index = none := by
        rcases hbad with h | h | h
        · exact absurd (Or.inl h) hidx
        · exact absurd (Or.inr h) hidx
        · exact h
      simp only [BannerRemoveAction.Execute, hget, hidx, hb, if_false, MakeResultError]
  have hworld : (a.Execute ext w).2 = w := by
    apply execute_failure_world
    rw [hexec]
    decide
  refine ⟨hexec, ?_, hworld, query_world ext a w, ?_⟩
  · intro hv hm
    rw [query_eq_execute_of_owned ext a w hv hm]
    exact hexec
  · rw [hworld]
    exact hget

/-- Witness of C11: the banner element of `danglingBannerWorld` carries
index 7, which resolves to no banner record. -/
theorem bad_index_invalid_parameters_witness :
    ((removeBannerAt 160 160 0).Execute sampleExternals danglingBannerWorld).1.Error
      = Status.InvalidParameters ∧
    (sampleExternals.LocationValid danglingBannerWorld (removeBannerAt 160 160 0).base
        (removeBannerAt 160 160 0)._loc = true →
      sampleExternals.map_can_build_at danglingBannerWorld
        ⟨(removeBannerAt 160 160 0)._loc.x, (removeBannerAt 160 160 0)._loc.y,
          (removeBannerAt 160 160 0)._loc.z - 16⟩ = true →
      ((removeBannerAt 160 160 0).Query sampleExternals danglingBannerWorld).1.Error
        = Status.InvalidParameters) ∧
    ((removeBannerAt 160 160 0).Execute sampleExternals danglingBannerWorld).2
      = danglingBannerWorld ∧
    ((removeBannerAt 160 160 0).Query sampleExternals danglingBannerWorld).2
      = danglingBannerWorld ∧
    (removeBannerAt 160 160 0).GetBannerElementAt sampleExternals
        ((removeBannerAt 160 160 0).Execute sampleExternals danglingBannerWorld).2
      = some (1, bannerElementAt 0 7 true) :=
  bad_index_invalid_parameters sampleExternals (removeBannerAt 160 160 0) danglingBannerWorld
    1 (bannerElementAt 0 7 true) (by decide) (by decide)

/-- C12: every result of `Query` or `Execute` whose status is not `Ok` has
status `NotOwned` or `InvalidParameters` and the error title
`STR_CANT_REMOVE_THIS`; a `NotOwned` result carries the detail identifier
`STR_LAND_NOT_OWNED_BY_PARK` beside that title. -/
theorem failure_identifiers (ext : Externals) (a : BannerRemoveAction) (w : World)
    (r : Result) (hr : r = (a.Query ext w).1 ∨ r = (a.Execute ext w).1)
    (hfail : r.Error ≠ Status.Ok) :
    (r.Error = Status.NotOwned ∨ r.Error = Status.InvalidParameters) ∧
    r.ErrorTitle = StringId.STR_CANT_REMOVE_THIS ∧
    (r.Error = Status.NotOwned →
      r.ErrorTitle = StringId.STR_CANT_REMOVE_THIS ∧
        r.ErrorMessage = StringId.STR_LAND_NOT_OWNED_BY_PARK) := by
  have hexec : ∀ r', r' = (a.Execute ext w).1 → r'.Error ≠ Status.Ok →
      r'.Error = Status.InvalidParameters ∧
        r'.ErrorTitle = StringId.STR_CANT_REMOVE_THIS := by
    intro r' hr' hfail'
    subst hr'
    cases hget : a.GetBannerElementAt ext w with
    | none => simp [BannerRemoveAction.Execute, hget, MakeResultError]
    | some p =>
      obtain ⟨i, e⟩ := p
      by_cases hidx : ext.MAX_BANNERS ≤ e.index ∨ e.index = ext.BANNER_INDEX_NULL
      · simp [BannerRemoveAction.Execute, hget, hidx, MakeResultError]
      · cases hb : GetBanner w e.index with
        | none =>
          simp only [BannerRemoveAction.Execute, hget, hidx, hb, if_false, MakeResultError,
            and_self]
        | some b =>
          exfalso
          apply hfail'
          cases hentry : ext.get_banner_entry b.type <;>
            simp only [BannerRemoveAction.Execute, hget, hidx, hb, hentry, if_false,
              MakeResult]
  have hnot : ∀ r' : Result, r'.Error = Status.InvalidParameters →
      ¬ r'.Error = Status.NotOwned := by
    intro r' h1 h2
    rw [h1] at h2
    exact absurd h2 (by decide)
  rcases hr with hr | hr
  · by_cases hown : ext.LocationValid w a.base a._loc = true ∧
        ext.map_can_build_at w ⟨a._loc.x, a._loc.y, a._loc.z - 16⟩ = true
    · obtain ⟨h1, h2⟩ :=
        hexec r (by rw [hr, query_eq_execute_of_owned ext a w hown.1 hown.2]) hfail
      exact ⟨Or.inr h1, h2, fun h => absurd h (hnot r h1)⟩
    · have hq : r = MakeResultError Status.NotOwned StringId.STR_CANT_REMOVE_THIS
          StringId.STR_LAND_NOT_OWNED_BY_PARK := by
        rw [hr]
        unfold BannerRemoveAction.Query
        by_cases hv : ext.LocationValid w a.base a._loc = true
        · have hm : ext.map_can_build_at w ⟨a._loc.x, a._loc.y, a._loc.z - 16⟩ = false := by
            cases hmm : ext.map_can_build_at w ⟨a._loc.x, a._loc.y, a._loc.z - 16⟩ with
            | false => rfl
            | true => exact absurd ⟨hv, hmm⟩ hown
          simp [hv, hm]
        · simp [hv]
      rw [hq]
      exact ⟨Or.inl rfl, rfl, fun _ => ⟨rfl, rfl⟩⟩
  · obtain ⟨h1, h2⟩ := hexec r hr hfail
    exact ⟨Or.inr h1, h2, fun h => absurd h (hnot r h1)⟩

/-- Witness of C12: the `NotOwned` result of `Query` on the unowned tile at
(0, 0) of the sample park. -/
theorem failure_identifiers_witness :
    ((removeBannerAt 0 0 0).Query sampleExternals sampleWorld).1.Error ≠ Status.Ok ∧
    ((((removeBannerAt 0 0 0).Query sampleExternals sampleWorld).1.Error = Status.NotOwned ∨
        ((removeBannerAt 0 0 0).Query sampleExternals sampleWorld).1.Error
          = Status.InvalidParameters) ∧
      ((removeBannerAt 0 0 0).Query sampleExternals sampleWorld).1.ErrorTitle
        = StringId.STR_CANT_REMOVE_THIS ∧
      (((removeBannerAt 0 0 0).Query sampleExternals sampleWorld).1.Error = Status.NotOwned →
        ((removeBannerAt 0 0 0).Query sampleExternals sampleWorld).1.ErrorTitle
            = StringId.STR_CANT_REMOVE_THIS ∧
          ((removeBannerAt 0 0 0).Query sampleExternals sampleWorld).1.ErrorMessage
            = StringId.STR_LAND_NOT_OWNED_BY_PARK)) :=
  ⟨by decide,
    failure_identifiers sampleExternals (removeBannerAt 0 0 0) sampleWorld _ (Or.inl rfl)
      (by decide)⟩

/-- C13 as stated fails: on the unowned tile at (0, 0) of the sample park
`Query` returns `NotOwned` in a fresh result whose position and expenditure
are unset, not (16, 16, 48) and `Landscaping`. -/
theorem query_failure_without_position :
    ((removeBannerAt 0 0 0).Query sampleExternals sampleWorld).1.Error = Status.NotOwned ∧
    ((removeBannerAt 0 0 0).Query sampleExternals sampleWorld).1.Position
      ≠ some ⟨0 + 16, 0 + 16, 48⟩ ∧
    ((removeBannerAt 0 0 0).Query sampleExternals sampleWorld).1.Expenditure
      ≠ some ExpenditureType.Landscaping := by
  decide

/-- C13, amended: whenever `Query` returns status `Ok`, its result has
position `(x + 16, y + 16, z)` and expenditure `Landscaping`. -/
theorem query_success_position (ext : Externals) (a : BannerRemoveAction) (w : World)
    (hok : (a.Query ext w).1.Error = Status.Ok) :
    (a.Query ext w).1.Position = some ⟨a._loc.x + 16, a._loc.y + 16, a._loc.z⟩ ∧
    (a.Query ext w).1.Expenditure = some ExpenditureType.Landscaping := by
  unfold BannerRemoveAction.Query at hok ⊢
  dsimp only at hok ⊢
  split
  · rename_i h
    simp [h, MakeResultError] at hok
  · rename_i h
    simp only [h, if_false] at hok
    split
    · rename_i h1
      simp [h1, MakeResultError] at hok
    · rename_i i e h1
      simp only [h1] at hok
      split
      · rename_i h2
        simp [h2, MakeResultError] at hok
      · rename_i h2
        simp only [h2, if_false] at hok
        split
        · rename_i h3
          simp [h3, MakeResultError] at hok
        · split <;> exact ⟨rfl, rfl⟩

/-- Witness of C13 (amended): the banner at (160, 160, 48) facing 0. -/
theorem query_success_position_witness :
    ((removeBannerAt 160 160 0).Query sampleExternals sampleWorld).1.Position
      = some ⟨(removeBannerAt 160 160 0)._loc.x + 16, (removeBannerAt 160 160 0)._loc.y + 16,
          (removeBannerAt 160 160 0)._loc.z⟩ ∧
    ((removeBannerAt 160 160 0).Query sampleExternals sampleWorld).1.Expenditure
      = some ExpenditureType.Landscaping :=
  query_success_position sampleExternals (removeBannerAt 160 160 0) sampleWorld (by decide)

/-- C14: `GetBannerElementAt` has first-match semantics over the tile's
elements in stored order.  It returns nothing exactly when no element up to
and including the one flagged last-for-tile is the sought banner (in
particular when the tile has no elements); otherwise it returns the earliest
such element, every element before it being neither sought nor flagged; and
what is stored after the element flagged last-for-tile is never read. -/
theorem lookup_first_match (ext : Externals) (a : BannerRemoveAction) (w : World) :
    (map_get_first_element_at ext w a._loc.x a._loc.y = [] →
      a.GetBannerElementAt ext w = none) ∧
    (a.GetBannerElementAt ext w = none ↔
      ∀ e ∈ tileStack (map_get_first_element_at ext w a._loc.x a._loc.y),
        ¬ IsSoughtBanner ext a e) ∧
    (∀ i e, a.GetBannerElementAt ext w = some (i, e) →
      (tileStack (map_get_first_element_at ext w a._loc.x a._loc.y))[i]? = some e ∧
      (map_get_first_element_at ext w a._loc.x a._loc.y)[i]? = some e ∧
      IsSoughtBanner ext a e ∧
      ∀ j e0, j < i → (map_get_first_element_at ext w a._loc.x a._loc.y)[j]? = some e0 →
        ¬ IsSoughtBanner ext a e0 ∧ e0.lastForTile = false) ∧
    a.GetBannerElementAt ext w
      = scanTile ext a 0 (tileStack (map_get_first_element_at ext w a._loc.x a._loc.y)) ∧
    (∀ pre last junk, last.lastForTile = true →
      scanTile ext a 0 (pre ++ last :: junk) = scanTile ext a 0 (pre ++ [last])) := by
  unfold BannerRemoveAction.GetBannerElementAt
  generalize map_get_first_element_at ext w a._loc.x a._loc.y = l
  refine ⟨?_, ⟨?_, ?_⟩, ?_, (scanTile_tileStack ext a l 0).symm, ?_⟩
  · intro h
    rw [h]
    rfl
  · intro hnone e he hs
    obtain ⟨p, hp⟩ := scanTile_some_of_stack ext a l 0 ⟨e, he, (bannerMatch_iff ext a e).mpr hs⟩
    rw [hnone] at hp
    exact absurd hp (by simp)
  · intro h
    apply scanTile_none_of_stack
    intro e he
    cases hm : bannerMatch ext a e with
    | false => rfl
    | true => exact absurd ((bannerMatch_iff ext a e).mp hm) (h e he)
  · intro i e h
    have h1 := scanTile_index ext a l 0 i e h
    have h2 := scanTile_index ext a (tileStack l) 0 i e (by rw [scanTile_tileStack]; exact h)
    simp only [Nat.sub_zero] at h1 h2
    refine ⟨h2.2.1, h1.2.1, (bannerMatch_iff ext a e).mp h1.2.2, ?_⟩
    intro j e0 hj hget
    obtain ⟨h3, h4⟩ := scanTile_before ext a l 0 i e h j e0 (by omega) hget
    refine ⟨?_, h4⟩
    intro hs
    rw [(bannerMatch_iff ext a e0).mpr hs] at h3
    exact absurd h3 (by decide)
  · intro pre last junk hl
    exact scanTile_append_junk ext a pre last junk hl 0

/-- C15 as stated fails: an action that carries the ghost flag is handed the
banner element of the sample park, which is not a ghost. -/
theorem ghost_action_finds_solid_banner :
    (removeGhostBannerAt 160 160 0).GetBannerElementAt sampleExternals sampleWorld
      = some (1, bannerElementAt 0 0 true) ∧
    (bannerElementAt 0 0 true).ghost = false ∧
    (removeGhostBannerAt 160 160 0).GetFlags &&& sampleExternals.GAME_COMMAND_FLAG_GHOST
      ≠ 0 := by
  decide

/-- C15, amended: the element returned by `GetBannerElementAt` is a banner
with base height `z` and orientation equal to the direction, and a ghost
element is returned only to an action that carries the ghost flag. -/
theorem lookup_result_matches (ext : Externals) (a : BannerRemoveAction) (w : World)
    (i : Nat) (e : TileElement) (h : a.GetBannerElementAt ext w = some (i, e)) :
    e.type = ext.TILE_ELEMENT_TYPE_BANNER ∧ e.baseZ = a._loc.z ∧
    e.position = a._loc.direction ∧
    (e.ghost = true → a.GetFlags &&& ext.GAME_COMMAND_FLAG_GHOST ≠ 0) := by
  unfold BannerRemoveAction.GetBannerElementAt at h
  exact (bannerMatch_iff ext a e).mp (scanTile_index ext a _ 0 i e h).2.2

/-- Witness of C15 (amended): the ghost banner of `ghostBannerWorld` is
returned to the action that carries the ghost flag. -/
theorem lookup_result_matches_witness :
    (removeGhostBannerAt 160 160 0).GetBannerElementAt sampleExternals ghostBannerWorld
      = some (1, { bannerElementAt 0 0 true with ghost := true }) ∧
    (({ bannerElementAt 0 0 true with ghost := true } : TileElement).type
        = sampleExternals.TILE_ELEMENT_TYPE_BANNER ∧
      ({ bannerElementAt 0 0 true with ghost := true } : TileElement).baseZ
        = (removeGhostBannerAt 160 160 0)._loc.z ∧
      ({ bannerElementAt 0 0 true with ghost := true } : TileElement).position
        = (removeGhostBannerAt 160 160 0)._loc.direction ∧
      (({ bannerElementAt 0 0 true with ghost := true } : TileElement).ghost = true →
        (removeGhostBannerAt 160 160 0).GetFlags &&& sampleExternals.GAME_COMMAND_FLAG_GHOST
          ≠ 0)) :=
  ⟨by decide,
    lookup_result_matches sampleExternals (removeGhostBannerAt 160 160 0) ghostBannerWorld 1
      { bannerElementAt 0 0 true with ghost := true } (by decide)⟩

/-- C16: after an `Execute` that returns `Ok`, the elements stored for the
tile at (x, y) are the previous ones with exactly the element returned by
`GetBannerElementAt` taken out, all others kept in their order; the banner
record that element referenced is released; the elements of every other tile
are unchanged. -/
theorem execute_removes_one_element (ext : Externals) (a : BannerRemoveAction) (w : World)
    (hok : (a.Execute ext w).1.Error = Status.Ok) :
    ∃ i e t, a.GetBannerElementAt ext w = some (i, e) ∧
      ext.tilePointer a._loc.x a._loc.y = some t ∧
      (map_get_first_element_at ext w a._loc.x a._loc.y)[i]? = some e ∧
      map_get_first_element_at ext (a.Execute ext w).2 a._loc.x a._loc.y
        = (map_get_first_element_at ext w a._loc.x a._loc.y).eraseIdx i ∧
      (map_get_first_element_at ext (a.Execute ext w).2 a._loc.x a._loc.y).length + 1
        = (map_get_first_element_at ext w a._loc.x a._loc.y).length ∧
      GetBanner (a.Execute ext w).2 e.index = none ∧
      (∀ k, k ≠ e.index → GetBanner (a.Execute ext w).2 k = GetBanner w k) ∧
      (∀ t0, t0 ≠ t → (a.Execute ext w).2.tiles.getD t0 [] = w.tiles.getD t0 []) ∧
      (∀ x0 y0, ext.tilePointer x0 y0 ≠ some t →
        map_get_first_element_at ext (a.Execute ext w).2 x0 y0
          = map_get_first_element_at ext w x0 y0) := by
  obtain ⟨i, e, hget, hw⟩ := execute_ok_world ext a w hok
  have hidx : (map_get_first_element_at ext w a._loc.x a._loc.y)[i]? = some e := by
    have := (scanTile_index ext a _ 0 i e hget).2.1
    simpa using this
  have hlt : i < (map_get_first_element_at ext w a._loc.x a._loc.y).length :=
    (List.getElem?_eq_some.mp hidx).1
  cases ht : ext.tilePointer a._loc.x a._loc.y with
  | none =>
    exfalso
    unfold map_get_first_element_at at hlt
    simp [ht] at hlt
  | some t =>
    have htl : t < w.tiles.length := by
      by_contra hc
      unfold map_get_first_element_at at hlt
      simp [ht, List.getElem?_eq_none (Nat.le_of_not_lt hc)] at hlt
    have htiles : (a.Execute ext w).2.tiles = w.tiles.modify (removeElementAt i) t := by
      rw [hw]
      simp [TileElement.Remove, ht, map_invalidate_tile_zoom1, tile_element_remove_banner_entry]
    have hbanners : (a.Execute ext w).2.banners = w.banners.set e.index none := by
      rw [hw]
      simp [TileElement.Remove, ht, map_invalidate_tile_zoom1, tile_element_remove_banner_entry]
    have hnew : map_get_first_element_at ext (a.Execute ext w).2 a._loc.x a._loc.y
        = (map_get_first_element_at ext w a._loc.x a._loc.y).eraseIdx i := by
      unfold map_get_first_element_at
      simp only [ht, htiles, getD_modify_self, htl, if_true]
      rfl
    refine ⟨i, e, t, hget, rfl, hidx, hnew, ?_, ?_, ?_, ?_, ?_⟩
    · rw [hnew, List.length_eraseIdx, if_pos hlt]
      omega
    · unfold GetBanner
      rw [hbanners]
      by_cases hb : e.index < w.banners.length
      · simp [List.getElem?_set, hb]
      · simp [List.getElem?_set, hb]
    · intro k hk
      unfold GetBanner
      rw [hbanners, List.getElem?_set_ne (Ne.symm hk)]
    · intro t0 ht0
      rw [htiles]
      simp only [List.getD_eq_getElem?_getD]
      rw [List.getElem?_modify_ne _ _ (Ne.symm ht0)]
    · intro x0 y0 hne
      unfold map_get_first_element_at
      cases hp : ext.tilePointer x0 y0 with
      | none => rfl
      | some t0 =>
        have ht0 : t0 ≠ t := by
          intro hc
          rw [hp, hc] at hne
          exact hne rfl
        simp only [htiles, List.getD_eq_getElem?_getD]
        rw [List.getElem?_modify_ne _ _ (Ne.symm ht0)]

/-- Witness of C16 on the sample park: removing the banner at (160, 160, 48)
leaves the surface element on that tile and releases banner record 0. -/
theorem execute_removes_one_element_witness :
    ((removeBannerAt 160 160 0).Execute sampleExternals sampleWorld).1.Error = Status.Ok ∧
    map_get_first_element_at sampleExternals
        ((removeBannerAt 160 160 0).Execute sampleExternals sampleWorld).2 160 160
      = [surfaceElement] ∧
    ∃ i e t, (removeBannerAt 160 160 0).GetBannerElementAt sampleExternals sampleWorld
        = some (i, e) ∧
      sampleExternals.tilePointer (removeBannerAt 160 160 0)._loc.x
        (removeBannerAt 160 160 0)._loc.y = some t ∧
      (map_get_first_element_at sampleExternals sampleWorld (removeBannerAt 160 160 0)._loc.x
        (removeBannerAt 160 160 0)._loc.y)[i]? = some e ∧
      map_get_first_element_at sampleExternals
          ((removeBannerAt 160 160 0).Execute sampleExternals sampleWorld).2
          (removeBannerAt 160 160 0)._loc.x (removeBannerAt 160 160 0)._loc.y
        = (map_get_first_element_at sampleExternals sampleWorld
            (removeBannerAt 160 160 0)._loc.x (removeBannerAt 160 160 0)._loc.y).eraseIdx i ∧
      (map_get_first_element_at sampleExternals
          ((removeBannerAt 160 160 0).Execute sampleExternals sampleWorld).2
          (removeBannerAt 160 160 0)._loc.x (removeBannerAt 160 160 0)._loc.y).length + 1
        = (map_get_first_element_at sampleExternals sampleWorld
            (removeBannerAt 160 160 0)._loc.x (removeBannerAt 160 160 0)._loc.y).length ∧
      GetBanner ((removeBannerAt 160 160 0).Execute sampleExternals sampleWorld).2 e.index
        = none ∧
      (∀ k, k ≠ e.index →
        GetBanner ((removeBannerAt 160 160 0).Execute sampleExternals sampleWorld).2 k
          = GetBanner sampleWorld k) ∧
      (∀ t0, t0 ≠ t →
        ((removeBannerAt 160 160 0).Execute sampleExternals sampleWorld).2.tiles.getD t0 []
          = sampleWorld.tiles.getD t0 []) ∧
      (∀ x0 y0, sampleExternals.tilePointer x0 y0 ≠ some t →
        map_get_first_element_at sampleExternals
            ((removeBannerAt 160 160 0).Execute sampleExternals sampleWorld).2 x0 y0
          = map_get_first_element_at sampleExternals sampleWorld x0 y0) :=
  ⟨by decide, by decide,
    execute_removes_one_element sampleExternals (removeBannerAt 160 160 0) sampleWorld
      (by decide)⟩

/-- C17: `AcceptParameters` shows the visitor exactly one field, `_loc`, once;
in write mode `Serialise` appends the base envelope first and then the stream
fields of exactly the visited parameters, in the order of the visits. -/
theorem accept_parameters_match_serialise (a : BannerRemoveAction) :
    (∀ visitor : GameActionParameterVisitor,
      (a.AcceptParameters visitor).visited
        = visitor.visited ++ [Parameter.coordsXYZD a._loc]) ∧
    (a.AcceptParameters { visited := [] }).visited = [Parameter.coordsXYZD a._loc] ∧
    (∀ before loc, DataSerialiser.visitCoordsXYZD { isSaving := true, fields := before } loc
      = some ({ isSaving := true,
                fields := before ++ (Parameter.coordsXYZD loc).streamFields }, loc)) ∧
    ∃ envelope, a.base.written = some envelope ∧
      (∀ before, a.base.Serialise { isSaving := true, fields := before }
        = some ({ isSaving := true, fields := before ++ envelope }, a.base)) ∧
      (∀ before, a.Serialise { isSaving := true, fields := before }
        = some ({ isSaving := true,
                  fields := before ++ envelope ++
                    ((a.AcceptParameters { visited := [] }).visited.flatMap
                      Parameter.streamFields) }, a)) ∧
      a.written
        = some (envelope ++
            ((a.AcceptParameters { visited := [] }).visited.flatMap Parameter.streamFields)) := by
  refine ⟨fun _ => rfl, rfl, ?_, ?_⟩
  · intro before loc
    simp [DataSerialiser.visitCoordsXYZD, DataSerialiser.visitSigned,
      DataSerialiser.visitUnsigned, Parameter.streamFields]
  · refine ⟨[Field.unsignedField a.base.type, Field.unsignedField a.base.flags,
      Field.signedField a.base.playerId], ?_, ?_, ?_, ?_⟩
    · simp [GameAction.written, GameAction.Serialise, DataSerialiser.visitSigned,
        DataSerialiser.visitUnsigned]
    · intro before
      simp [GameAction.Serialise, DataSerialiser.visitSigned, DataSerialiser.visitUnsigned]
    · intro before
      simp [BannerRemoveAction.Serialise, GameAction.Serialise,
        DataSerialiser.visitCoordsXYZD, DataSerialiser.visitSigned,
        DataSerialiser.visitUnsigned, BannerRemoveAction.AcceptParameters,
        GameActionParameterVisitor.Visit, Parameter.streamFields]
    · simp [BannerRemoveAction.written, BannerRemoveAction.Serialise, GameAction.Serialise,
        DataSerialiser.visitCoordsXYZD, DataSerialiser.visitSigned,
        DataSerialiser.visitUnsigned, BannerRemoveAction.AcceptParameters,
        GameActionParameterVisitor.Visit, Parameter.streamFields]


/-! ## Lemmas on Trim -/

theorem textBytes_append (a b : List Glyph) : textBytes (a ++ b) = textBytes a ++ textBytes b := by
  simp [textBytes]

theorem textBytes_cons (g : Glyph) (r : List Glyph) : textBytes (g :: r) = g.bytes ++ textBytes r := by
  simp [textBytes]

theorem decodes_tail (ext : TextExternals) (g : Glyph) (r : List Glyph)
    (h : Decodes ext (g :: r)) : Decodes ext r :=
  ⟨h.1, fun x hx => h.2 x (List.mem_cons_of_mem _ hx)⟩

theorem decodes_of_subset (ext : TextExternals) (t u : List Glyph)
    (h : Decodes ext t) (hsub : ∀ g ∈ u, g ∈ t) : Decodes ext u :=
  ⟨h.1, fun x hx => h.2 x (hsub x hx)⟩

theorem length_le_textBytes (ext : TextExternals) (t : List Glyph) (h : Decodes ext t) :
    t.length ≤ (textBytes t).length := by
  induction t with
  | nil => simp
  | cons g r ih =>
    have hg := (h.2 g (List.mem_cons_self _ _)).1
    have hlen : 0 < g.bytes.length := List.length_pos.mpr hg
    have := ih (decodes_tail ext g r h)
    simp only [textBytes_cons, List.length_cons, List.length_append]
    omega

theorem getNextCodepoint_glyph (ext : TextExternals) (before : List Nat) (g : Glyph)
    (rest : List Nat)
    (hg : ∀ r, ext.utf8_get_next (g.bytes ++ r) = (g.codepoint, g.bytes.length)) :
    String.GetNextCodepoint ext (before ++ (g.bytes ++ rest)) before.length
      = (g.codepoint, before.length + g.bytes.length) := by
  simp [String.GetNextCodepoint, List.drop_left, hg]

theorem trimLoop_text (ext : TextExternals) (t : List Glyph) :
    ∀ (before : List Nat) (fuel : Nat) (st en : Option Nat), Decodes ext t → t.length < fuel →
      String.trimLoop ext (before ++ (textBytes t ++ [0])) fuel before.length st en
        = some (trimPointers ext before.length t st en) := by
  induction t with
  | nil =>
    intro before fuel st en h hf
    cases fuel with
    | zero => omega
    | succ f =>
      have hcp : (String.GetNextCodepoint ext (before ++ [0]) before.length).1 = 0 := by
        simp [String.GetNextCodepoint, List.drop_left, h.1]
      simp [String.trimLoop, textBytes, trimPointers, hcp]
  | cons g r ih =>
    intro before fuel st en h hf
    cases fuel with
    | zero => omega
    | succ f =>
      obtain ⟨hne, hcp, hdec⟩ := h.2 g (List.mem_cons_self _ _)
      have hlen : 0 < g.bytes.length := List.length_pos.mpr hne
      have hnext := getNextCodepoint_glyph ext before g (textBytes r ++ [0]) hdec
      have hbuf : before ++ (textBytes (g :: r) ++ [0])
          = before ++ (g.bytes ++ (textBytes r ++ [0])) := by
        simp [textBytes_cons]
      have hbuf2 : before ++ (g.bytes ++ (textBytes r ++ [0]))
          = (before ++ g.bytes) ++ (textBytes r ++ [0]) := by simp
      have hih := ih (before ++ g.bytes) f
      simp only [List.length_append] at hih
      rw [hbuf]
      unfold String.trimLoop
      rw [hnext]
      have hnot : ¬ (before ++ (g.bytes ++ (textBytes r ++ [0]))).length ≤ before.length := by
        simp only [List.length_append]
        omega
      simp only [hnot, if_false, hcp]
      unfold trimPointers
      unfold isWhiteSpaceGlyph
      rw [hbuf2]
      by_cases hw : (decide (g.codepoint ≤ ext.WCHAR_MAX) &&
          String.IsWhiteSpace ext g.codepoint) = false
      · simp only [hw, if_true]
        exact hih _ _ (decodes_tail ext g r h) (by simp at hf; omega)
      · simp only [hw, if_false]
        exact hih _ _ (decodes_tail ext g r h) (by simp at hf; omega)

theorem rdropWhile_cons (p : Glyph → Bool) (g : Glyph) (r : List Glyph) :
    (g :: r).rdropWhile p
      = if r.rdropWhile p = [] then (if p g then [] else [g]) else g :: r.rdropWhile p := by
  induction r using List.reverseRecOn with
  | nil => simp [List.rdropWhile_singleton]
  | append_singleton r x ih =>
    rw [← List.cons_append, List.rdropWhile_concat, List.rdropWhile_concat]
    by_cases hx : p x = true
    · simp only [hx, if_true]
      exact ih
    · simp [hx]

theorem trimPointers_leading (ext : TextExternals) (t : List Glyph) :
    ∀ o, trimPointers ext o t none none
      = trimPointers ext (o + (textBytes (t.takeWhile (isWhiteSpaceGlyph ext))).length)
          (t.dropWhile (isWhiteSpaceGlyph ext)) none none := by
  induction t with
  | nil => intro o; simp [textBytes]
  | cons g r ih =>
    intro o
    by_cases hw : isWhiteSpaceGlyph ext g = true
    · rw [List.takeWhile_cons_of_pos hw, List.dropWhile_cons_of_pos hw]
      conv_lhs => unfold trimPointers
      simp only [hw, Bool.true_eq_false, if_false]
      rw [ih, textBytes_cons, List.length_append, Nat.add_assoc]
    · rw [List.takeWhile_cons_of_neg hw, List.dropWhile_cons_of_neg hw]
      simp [textBytes]

theorem trimPointers_started (ext : TextExternals) (r : List Glyph) :
    ∀ o s e, trimPointers ext o r (some s) (some e)
      = (some s,
          some (if r.rdropWhile (isWhiteSpaceGlyph ext) = [] then e
            else o + (textBytes (r.rdropWhile (isWhiteSpaceGlyph ext))).length - 1)) := by
  induction r with
  | nil => intro o s e; simp [trimPointers]
  | cons g r ih =>
    intro o s e
    unfold trimPointers
    rw [rdropWhile_cons]
    by_cases hw : isWhiteSpaceGlyph ext g = true
    · simp only [hw, Bool.true_eq_false, if_false, if_true]
      rw [ih]
      by_cases hr : r.rdropWhile (isWhiteSpaceGlyph ext) = []
      · simp only [hr, if_true]
      · have hne : g :: r.rdropWhile (isWhiteSpaceGlyph ext) ≠ [] := by simp
        simp only [hr, if_false, hne, textBytes_cons, List.length_append, Nat.add_assoc]
    · have hw2 : isWhiteSpaceGlyph ext g = false := by simpa using hw
      have hsome : (if some s = none then some o else some s) = some s := by simp
      simp only [hw2, if_true, Bool.false_eq_true, if_false, hsome]
      rw [ih]
      by_cases hr : r.rdropWhile (isWhiteSpaceGlyph ext) = []
      · have hne : [g] ≠ [] := by simp
        simp [hr, textBytes]
      · have hne : g :: r.rdropWhile (isWhiteSpaceGlyph ext) ≠ [] := by simp
        simp only [hr, if_false, hne, textBytes_cons, List.length_append, Nat.add_assoc]

theorem drop_take_middle (a m c : List Nat) (i n : Nat) (hi : i = a.length)
    (hn : n = m.length) : ((a ++ (m ++ c)).drop i).take n = m := by
  subst hi hn
  rw [List.drop_left, List.take_left]

theorem dropWhile_head_not (ext : TextExternals) (t : List Glyph) (g : Glyph) (r : List Glyph)
    (hd : t.dropWhile (isWhiteSpaceGlyph ext) = g :: r) : isWhiteSpaceGlyph ext g = false := by
  have h := List.head?_dropWhile_not (isWhiteSpaceGlyph ext) t
  rw [hd] at h
  simpa using h

theorem trimmedText_of_dropWhile (ext : TextExternals) (t : List Glyph) (g : Glyph)
    (r : List Glyph) (hd : t.dropWhile (isWhiteSpaceGlyph ext) = g :: r) :
    trimmedText ext t = g :: r.rdropWhile (isWhiteSpaceGlyph ext) := by
  have hg := dropWhile_head_not ext t g r hd
  unfold trimmedText
  rw [hd, rdropWhile_cons]
  by_cases hr : r.rdropWhile (isWhiteSpaceGlyph ext) = []
  · simp [hr, hg]
  · simp [hr]

theorem trim_eq (ext : TextExternals) (t : List Glyph) (h : Decodes ext t) :
    String.Trim ext (textBytes t) = some (textBytes (trimmedText ext t)) := by
  have hfuel : t.length < (textBytes t ++ [0]).length := by
    have := length_le_textBytes ext t h
    simp only [List.length_append, List.length_singleton]
    omega
  have hloop := trimLoop_text ext t [] (textBytes t ++ [0]).length none none h hfuel
  simp only [List.nil_append, List.length_nil] at hloop
  unfold String.Trim
  rw [hloop, trimPointers_leading]
  cases hd : t.dropWhile (isWhiteSpaceGlyph ext) with
  | nil =>
    simp [trimPointers, trimmedText, hd, textBytes]
  | cons g r =>
    have hg := dropWhile_head_not ext t g r hd
    have htrim := trimmedText_of_dropWhile ext t g r hd
    obtain ⟨trail, htrail⟩ := List.rdropWhile_prefix (isWhiteSpaceGlyph ext) (l := r)
    have hsplit : t = t.takeWhile (isWhiteSpaceGlyph ext)
        ++ ((g :: r.rdropWhile (isWhiteSpaceGlyph ext)) ++ trail) := by
      have h1 := List.takeWhile_append_dropWhile (isWhiteSpaceGlyph ext) t
      rw [hd] at h1
      rw [List.cons_append, htrail]
      exact h1.symm
    have hbuf : textBytes t ++ [0]
        = textBytes (t.takeWhile (isWhiteSpaceGlyph ext))
          ++ (textBytes (g :: r.rdropWhile (isWhiteSpaceGlyph ext))
            ++ (textBytes trail ++ [0])) := by
      conv_lhs => rw [hsplit]
      simp only [textBytes_append, List.append_assoc]
    have hglen : 0 < g.bytes.length :=
      List.length_pos.mpr (h.2 g (by
        have : g ∈ t.dropWhile (isWhiteSpaceGlyph ext) := by rw [hd]; exact List.mem_cons_self _ _
        exact (List.dropWhile_sublist _).subset this)).1
    unfold trimPointers
    simp only [hg, if_true, Nat.zero_add]
    rw [trimPointers_started, htrim, hbuf]
    simp only [Option.getD_some]
    congr 1
    apply drop_take_middle
    · rfl
    · by_cases hr : r.rdropWhile (isWhiteSpaceGlyph ext) = []
      · have hnil : textBytes [] = [] := rfl
        simp only [hr, if_true, textBytes_cons, List.length_append, hnil, List.length_nil]
        omega
      · simp only [hr, if_false, textBytes_cons, List.length_append]
        omega

theorem rdropWhile_split (p : Glyph → Bool) (l : List Glyph) :
    ∃ trail, l = l.rdropWhile p ++ trail ∧ ∀ x ∈ trail, p x = true := by
  induction l using List.reverseRecOn with
  | nil => exact ⟨[], by simp, by simp⟩
  | append_singleton l x ih =>
    by_cases hx : p x = true
    · obtain ⟨trail, h1, h2⟩ := ih
      refine ⟨trail ++ [x], ?_, ?_⟩
      · rw [List.rdropWhile_concat_pos _ _ _ hx, ← List.append_assoc, ← h1]
      · intro y hy
        rcases List.mem_append.mp hy with hy | hy
        · exact h2 y hy
        · rw [List.mem_singleton.mp hy]
          exact hx
    · exact ⟨[], by rw [List.rdropWhile_concat_neg _ _ _ hx]; simp, by simp⟩

theorem trimmedText_subset (ext : TextExternals) (t : List Glyph) :
    ∀ g ∈ trimmedText ext t, g ∈ t := by
  intro g hg
  unfold trimmedText at hg
  have h1 := (List.rdropWhile_prefix (isWhiteSpaceGlyph ext)
    (l := t.dropWhile (isWhiteSpaceGlyph ext))).subset hg
  exact (List.dropWhile_sublist _).subset h1

theorem trimmedText_head (ext : TextExternals) (t : List Glyph) (g : Glyph)
    (h : (trimmedText ext t).head? = some g) : isWhiteSpaceGlyph ext g = false := by
  cases hd : t.dropWhile (isWhiteSpaceGlyph ext) with
  | nil => simp [trimmedText, hd] at h
  | cons g0 r =>
    rw [trimmedText_of_dropWhile ext t g0 r hd] at h
    simp only [List.head?_cons, Option.some.injEq] at h
    rw [← h]
    exact dropWhile_head_not ext t g0 r hd

theorem trimmedText_last (ext : TextExternals) (t : List Glyph) (g : Glyph)
    (h : (trimmedText ext t).getLast? = some g) : isWhiteSpaceGlyph ext g = false := by
  have hne : trimmedText ext t ≠ [] := by
    intro hc
    rw [hc] at h
    simp at h
  have hlast := List.rdropWhile_last_not (isWhiteSpaceGlyph ext)
    (t.dropWhile (isWhiteSpaceGlyph ext)) hne
  have hg : (trimmedText ext t).getLast hne = g := by
    rw [List.getLast?_eq_getLast _ hne] at h
    exact Option.some.inj h
  unfold trimmedText at hg
  rw [hg] at hlast
  simpa using hlast

theorem trimmedText_idempotent (ext : TextExternals) (t : List Glyph) :
    trimmedText ext (trimmedText ext t) = trimmedText ext t := by
  cases hd : t.dropWhile (isWhiteSpaceGlyph ext) with
  | nil => simp [trimmedText, hd]
  | cons g0 r =>
    have hg := dropWhile_head_not ext t g0 r hd
    have h1 := trimmedText_of_dropWhile ext t g0 r hd
    have h2 : (trimmedText ext t).dropWhile (isWhiteSpaceGlyph ext) = trimmedText ext t := by
      rw [h1, List.dropWhile_cons_of_neg (by simp [hg])]
    have h3 : trimmedText ext (trimmedText ext t)
        = (trimmedText ext t).rdropWhile (isWhiteSpaceGlyph ext) := by
      have h4 : trimmedText ext (trimmedText ext t)
          = ((trimmedText ext t).dropWhile (isWhiteSpaceGlyph ext)).rdropWhile
              (isWhiteSpaceGlyph ext) := rfl
      rw [h4, h2]
    have h5 : (trimmedText ext t).rdropWhile (isWhiteSpaceGlyph ext) = trimmedText ext t :=
      List.rdropWhile_idempotent (isWhiteSpaceGlyph ext) _
    rw [h3, h5]

/-- C19: on a text that the decoder reads as a sequence of codepoints,
`Trim(const std::string&)` returns the bytes of the contiguous part of the
text that runs from its first non-whitespace codepoint through the last byte
of its last non-whitespace codepoint: what stands before and after that part
is whitespace only, the part neither starts nor ends with whitespace, it is
empty when the text holds no non-whitespace codepoint, and trimming the
result again returns it unchanged. -/
theorem trim_substring (ext : TextExternals) (t : List Glyph) (h : Decodes ext t) :
    String.Trim ext (textBytes t) = some (textBytes (trimmedText ext t)) ∧
    (∃ lead trail, t = lead ++ (trimmedText ext t ++ trail) ∧
      textBytes t = textBytes lead ++ (textBytes (trimmedText ext t) ++ textBytes trail) ∧
      (∀ g ∈ lead, isWhiteSpaceGlyph ext g = true) ∧
      (∀ g ∈ trail, isWhiteSpaceGlyph ext g = true)) ∧
    (∀ g, (trimmedText ext t).head? = some g → isWhiteSpaceGlyph ext g = false) ∧
    (∀ g, (trimmedText ext t).getLast? = some g → isWhiteSpaceGlyph ext g = false) ∧
    ((∀ g ∈ t, isWhiteSpaceGlyph ext g = true) → String.Trim ext (textBytes t) = some []) ∧
    (String.Trim ext (textBytes t)).bind (String.Trim ext) = String.Trim ext (textBytes t) := by
  have heq := trim_eq ext t h
  refine ⟨heq, ?_, trimmedText_head ext t, trimmedText_last ext t, ?_, ?_⟩
  · obtain ⟨trail, h1, h2⟩ :=
      rdropWhile_split (isWhiteSpaceGlyph ext) (t.dropWhile (isWhiteSpaceGlyph ext))
    have hsplit : t = t.takeWhile (isWhiteSpaceGlyph ext) ++ (trimmedText ext t ++ trail) := by
      unfold trimmedText
      rw [← h1]
      exact (List.takeWhile_append_dropWhile (isWhiteSpaceGlyph ext) t).symm
    refine ⟨t.takeWhile (isWhiteSpaceGlyph ext), trail, hsplit, ?_, ?_, h2⟩
    · conv_lhs => rw [hsplit]
      simp only [textBytes_append]
    · intro g hg
      exact List.mem_takeWhile_imp hg
  · intro hall
    have hnil : trimmedText ext t = [] := by
      unfold trimmedText
      rw [List.dropWhile_eq_nil_iff.mpr hall]
      rfl
    rw [heq, hnil]
    rfl
  · rw [heq, Option.some_bind,
      trim_eq ext (trimmedText ext t) (decodes_of_subset ext t _ h (trimmedText_subset ext t)),
      trimmedText_idempotent]

/-- Witness of C19: the sample decoder reads `sampleText`, whose trimmed part
is the two-byte letter followed by `a`. -/
theorem trim_substring_witness :
    Decodes sampleTextExternals sampleText ∧
    trimmedText sampleTextExternals sampleText = [⟨[0xC3, 0xA9], 0xE9⟩, ⟨[0x61], 0x61⟩] ∧
    String.Trim sampleTextExternals (textBytes sampleText)
      = some (textBytes (trimmedText sampleTextExternals sampleText)) :=
  have hdec : Decodes sampleTextExternals sampleText := by
    refine ⟨by decide, ?_⟩
    intro g hg
    simp only [sampleText, List.mem_cons, List.mem_singleton, List.not_mem_nil, or_false] at hg
    rcases hg with hg | hg | hg | hg | hg <;> subst hg <;>
      exact ⟨by decide, by decide, fun rest => by simp [sampleTextExternals]⟩
  ⟨hdec, by decide, (trim_substring sampleTextExternals sampleText hdec).1⟩

/-- C18: the in-place `Trim(utf8* str)` does not remove trailing whitespace
and leaves a text of whitespace only as it is, while `Trim(const
std::string&)` removes both.  On the C strings "a ", "  " and " a " the
buffer holds "a ", "  " and "a " after the in-place call; the other overload
returns "a", "" and "a". -/
theorem trim_in_place_keeps_trailing_whitespace :
    (String.TrimInPlace sampleTextExternals [0x61, 0x20, 0]).map cString = some [0x61, 0x20] ∧
    String.Trim sampleTextExternals [0x61, 0x20] = some [0x61] ∧
    (String.TrimInPlace sampleTextExternals [0x20, 0x20, 0]).map cString
      = some [0x20, 0x20] ∧
    String.Trim sampleTextExternals [0x20, 0x20] = some [] ∧
    (String.TrimInPlace sampleTextExternals [0x20, 0x61, 0x20, 0]).map cString
      = some [0x61, 0x20] ∧
    String.Trim sampleTextExternals [0x20, 0x61, 0x20] = some [0x61] := by
  decide


/-! ## Lemmas on Split -/

theorem findFrom_some (d : List Nat) (l : List Nat) :
    ∀ pos n, findFrom d l pos = some n →
      ∃ k, n = pos + k ∧ k + d.length ≤ l.length ∧ d <+: l.drop k ∧
        ∀ j, j < k → ¬ d <+: l.drop j := by
  induction l with
  | nil =>
    intro pos n h
    unfold findFrom at h
    by_cases hd : d = []
    · simp only [hd, if_true, Option.some.injEq] at h
      exact ⟨0, by omega, by simp [hd], by simp [hd], by intro j hj; omega⟩
    · simp [hd] at h
  | cons c rest ih =>
    intro pos n h
    unfold findFrom at h
    by_cases hp : d.isPrefixOf (c :: rest) = true
    · simp only [hp, if_true, Option.some.injEq] at h
      have hpre : d <+: c :: rest := List.isPrefixOf_iff_prefix.mp hp
      exact ⟨0, by omega, by simpa using hpre.length_le, by simpa using hpre,
        by intro j hj; omega⟩
    · simp only [hp, Bool.false_eq_true, if_false] at h
      obtain ⟨k, h1, h2, h3, h4⟩ := ih (pos + 1) n h
      refine ⟨k + 1, by omega, by simp only [List.length_cons]; omega, by simpa using h3, ?_⟩
      intro j hj
      cases j with
      | zero =>
        intro hc
        exact hp (List.isPrefixOf_iff_prefix.mpr (by simpa using hc))
      | succ j =>
        simpa using h4 j (by omega)

theorem findFrom_none (d : List Nat) (l : List Nat) :
    ∀ pos, findFrom d l pos = none → ∀ j, ¬ d <+: l.drop j := by
  induction l with
  | nil =>
    intro pos h j hc
    unfold findFrom at h
    by_cases hd : d = []
    · simp [hd] at h
    · simp only [List.drop_nil, List.prefix_nil] at hc
      exact hd hc
  | cons c rest ih =>
    intro pos h j
    unfold findFrom at h
    by_cases hp : d.isPrefixOf (c :: rest) = true
    · simp [hp] at h
    · simp only [hp, Bool.false_eq_true, if_false] at h
      cases j with
      | zero =>
        intro hc
        exact hp (List.isPrefixOf_iff_prefix.mpr (by simpa using hc))
      | succ j => simpa using ih (pos + 1) h j

theorem not_infix_of_no_start (d l : List Nat) (h : ∀ j, ¬ d <+: l.drop j) : ¬ d <:+: l := by
  rintro ⟨a, b, hab⟩
  apply h a.length
  rw [← hab, List.append_assoc, List.drop_left]
  exact List.prefix_append d b

theorem not_infix_take (d l : List Nat) (k : Nat) (hd : d ≠ [])
    (h : ∀ j, j < k → ¬ d <+: l.drop j) : ¬ d <:+: l.take k := by
  rintro ⟨a, b, hab⟩
  have hdl : 0 < d.length := List.length_pos.mpr hd
  have hlen : a.length + d.length + b.length = (l.take k).length := by
    rw [← hab]
    simp only [List.length_append]
  have hk : (l.take k).length ≤ k := by
    rw [List.length_take]
    exact Nat.min_le_left _ _
  apply h a.length (by omega)
  have hl : l = a ++ (d ++ (b ++ l.drop k)) := by
    conv_lhs => rw [← List.take_append_drop k l, ← hab]
    simp only [List.append_assoc]
  rw [hl, List.drop_left]
  exact List.prefix_append d _

theorem intercalate_cons_cons (d p q : List Nat) (qs : List (List Nat)) :
    d.intercalate (p :: q :: qs) = p ++ (d ++ d.intercalate (q :: qs)) := by
  simp [List.intercalate, List.intersperse]

theorem intercalate_singleton (d p : List Nat) : d.intercalate [p] = p := by
  simp [List.intercalate, List.intersperse]

theorem cuts_nonempty (d s : List Nat) (pieces : List (List Nat))
    (h : LeftmostCuts d s pieces) : pieces ≠ [] := by
  cases h <;> simp

theorem cuts_intercalate (d s : List Nat) (pieces : List (List Nat))
    (h : LeftmostCuts d s pieces) : d.intercalate pieces = s := by
  induction h with
  | whole s hfree => exact intercalate_singleton d s
  | cut piece rest pieces hleft hrest ih =>
    cases pieces with
    | nil => exact absurd rfl (cuts_nonempty d rest [] hrest)
    | cons q qs => rw [intercalate_cons_cons, ih]

theorem cuts_free (d s : List Nat) (pieces : List (List Nat)) (hd : d ≠ [])
    (h : LeftmostCuts d s pieces) : ∀ p ∈ pieces, ¬ d <:+: p := by
  induction h with
  | whole s hfree =>
    intro p hp
    rw [List.mem_singleton.mp hp]
    exact hfree
  | cut piece rest pieces hleft hrest ih =>
    intro p hp
    rcases List.mem_cons.mp hp with hp | hp
    · rw [hp]
      have := not_infix_take d (piece ++ (d ++ rest)) piece.length hd hleft
      rwa [List.take_left] at this
    · exact ih p hp

theorem splitLoop_spec (s d : List Nat) (hd : d ≠ []) :
    ∀ fuel index results, index ≤ s.length → s.length - index < fuel →
      ∃ pieces, String.splitLoop s d fuel index results = some (results ++ pieces) ∧
        LeftmostCuts d (s.drop index) pieces := by
  intro fuel
  induction fuel with
  | zero => intro index results _ hf; omega
  | succ f ih =>
    intro index results hidx hf
    unfold String.splitLoop
    have hfind : stdFind s d index = findFrom d (s.drop index) index := by
      simp [stdFind, hidx]
    rw [hfind]
    cases hres : findFrom d (s.drop index) index with
    | none =>
      exact ⟨[s.drop index], rfl,
        LeftmostCuts.whole _ (not_infix_of_no_start d _ (findFrom_none d _ index hres))⟩
    | some n =>
      obtain ⟨k, hn, hlen, hpre, hleft⟩ := findFrom_some d _ index n hres
      have hdl : 0 < d.length := List.length_pos.mpr hd
      have hslen : (s.drop index).length = s.length - index := List.length_drop _ _
      obtain ⟨tail, htail⟩ := hpre
      have htail2 : tail = s.drop (n + d.length) := by
        have h1 : ((s.drop index).drop k).drop d.length = tail := by
          rw [← htail, List.drop_left]
        rw [← h1, List.drop_drop, List.drop_drop, hn]
        congr 1
        omega
      have hl : s.drop index
          = (s.drop index).take (n - index) ++ (d ++ s.drop (n + d.length)) := by
        have hk : n - index = k := by omega
        rw [hk, ← htail2, htail, List.take_append_drop]
      obtain ⟨pieces, hloop, hcuts⟩ := ih (n + d.length)
        (results ++ [(s.drop index).take (n - index)]) (by omega) (by omega)
      refine ⟨(s.drop index).take (n - index) :: pieces, ?_, ?_⟩
      · simp only [hloop, List.append_assoc, List.singleton_append]
      · have hcut : LeftmostCuts d
            ((s.drop index).take (n - index) ++ (d ++ s.drop (n + d.length)))
            ((s.drop index).take (n - index) :: pieces) := by
          apply LeftmostCuts.cut _ _ _ _ hcuts
          intro j hj
          rw [← hl]
          apply hleft
          have : ((s.drop index).take (n - index)).length ≤ n - index := by
            rw [List.length_take]
            exact Nat.min_le_left _ _
          omega
        rw [← hl] at hcut
        exact hcut

/-- C20: for a non-empty delimiter and a non-empty string, `Split` returns
pieces whose join with the delimiter between consecutive pieces is the string
itself, none of which holds the delimiter as a substring; the pieces are cut
at the leftmost, non-overlapping occurrences of the delimiter and empty pieces
are kept. -/
theorem split_join (s d : List Nat) (hd : d ≠ []) (hs : s ≠ []) :
    ∃ pieces, String.Split s d = Except.ok pieces ∧
      d.intercalate pieces = s ∧
      (∀ p ∈ pieces, ¬ d <:+: p) ∧
      LeftmostCuts d s pieces := by
  obtain ⟨pieces, hloop, hcuts⟩ := splitLoop_spec s d hd (s.length + 1) 0 [] (by omega) (by omega)
  simp only [List.nil_append, List.drop_zero] at hloop hcuts
  refine ⟨pieces, ?_, cuts_intercalate d s pieces hcuts, cuts_free d s pieces hd hcuts, hcuts⟩
  unfold String.Split
  simp only [hd, if_false, hs, ne_eq, not_false_eq_true, if_true, hloop]

/-- Witness of C20: "a,b,,c" split at "," gives "a", "b", "" and "c". -/
theorem split_join_witness :
    String.Split [0x61, 0x2C, 0x62, 0x2C, 0x2C, 0x63] [0x2C]
      = Except.ok [[0x61], [0x62], [], [0x63]] ∧
    ∃ pieces, String.Split [0x61, 0x2C, 0x62, 0x2C, 0x2C, 0x63] [0x2C] = Except.ok pieces ∧
      List.intercalate [0x2C] pieces = [0x61, 0x2C, 0x62, 0x2C, 0x2C, 0x63] ∧
      (∀ p ∈ pieces, ¬ [0x2C] <:+: p) ∧
      LeftmostCuts [0x2C] [0x61, 0x2C, 0x62, 0x2C, 0x2C, 0x63] pieces :=
  ⟨rfl, split_join [0x61, 0x2C, 0x62, 0x2C, 0x2C, 0x63] [0x2C] (by decide) (by decide)⟩


/-! ## Claims on Split failure, EndsWith and Set -/

/-- C21: `Split` throws `invalid_argument` exactly when the delimiter is
empty, whatever `s` is; for a non-empty delimiter it returns the empty list
when `s` is empty and a list of at least one piece when `s` is not empty. -/
theorem split_failure_iff (s d : List Nat) :
    (String.Split s d = Except.error SplitError.invalid_argument ↔ d = []) ∧
    (d ≠ [] → s = [] → String.Split s d = Except.ok []) ∧
    (d ≠ [] → s ≠ [] →
      ∃ pieces, String.Split s d = Except.ok pieces ∧ 1 ≤ pieces.length) := by
  have hempty : d ≠ [] → s = [] → String.Split s d = Except.ok [] := by
    intro hd hs
    simp [String.Split, hd, hs]
  have hpieces : d ≠ [] → s ≠ [] →
      ∃ pieces, String.Split s d = Except.ok pieces ∧ 1 ≤ pieces.length := by
    intro hd hs
    obtain ⟨pieces, hloop, hcuts⟩ :=
      splitLoop_spec s d hd (s.length + 1) 0 [] (by omega) (by omega)
    simp only [List.nil_append, List.drop_zero] at hloop hcuts
    refine ⟨pieces, ?_, ?_⟩
    · unfold String.Split
      simp only [hd, if_false, hs, ne_eq, not_false_eq_true, if_true, hloop]
    · have hne := cuts_nonempty d s pieces hcuts
      cases pieces with
      | nil => exact absurd rfl hne
      | cons p ps => simp
  refine ⟨⟨?_, ?_⟩, hempty, hpieces⟩
  · intro h
    by_contra hd
    by_cases hs : s = []
    · rw [hempty hd hs] at h
      cases h
    · obtain ⟨pieces, hp, _⟩ := hpieces hd hs
      rw [hp] at h
      cases h
  · intro hd
    simp [String.Split, hd]

/-- C22: `EndsWith` compares the C strings stored at the two `data()`
pointers and not the characters of the views.  The view "hello" of the buffer
"hello.txt" ends with "llo", yet `EndsWith` answers false because `strcmp`
reads on to ".txt"; and against the empty default view, whose `data()` is
null, it answers false although every view ends with the empty string. -/
theorem ends_with_reads_past_view (stricmp : List Nat → List Nat → Int) :
    helloView.size ≥ lloView.size ∧
    helloView.chars.drop (helloView.size - lloView.size) = lloView.chars ∧
    String.EndsWith stricmp helloView lloView false = false ∧
    abcView.size ≥ emptyView.size ∧
    abcView.chars.drop (abcView.size - emptyView.size) = emptyView.chars ∧
    String.EndsWith stricmp abcView emptyView false = false := by
  refine ⟨by decide, by decide, ?_, by decide, by decide, ?_⟩ <;> rfl

theorem getElem?_after_append (before : List Nat) (x : Nat) (rest : List Nat) :
    (before ++ x :: rest)[before.length]? = some x := by
  rw [List.getElem?_append_right (Nat.le_refl _)]
  simp

theorem setLoop_spec (after : List Nat) :
    ∀ (rounds : Nat) (body before buffer : List Nat) (dst : Nat),
      (∀ b ∈ body, b ≠ 0) → dst + min rounds (body.length + 1) ≤ buffer.length →
      String.setLoop (before ++ (body ++ 0 :: after)) rounds buffer dst before.length
        = some (buffer.take dst ++ ((body ++ [0]).take rounds
              ++ buffer.drop (dst + min rounds (body.length + 1))),
            dst + min rounds (body.length + 1)) := by
  intro rounds
  induction rounds with
  | zero =>
    intro body before buffer dst _ _
    simp [String.setLoop]
  | succ n ih =>
    intro body before buffer dst hbody hroom
    have hdst : dst < buffer.length := by
      have : 1 ≤ min (n + 1) (body.length + 1) := by
        simp only [Nat.le_min]
        omega
      omega
    cases body with
    | nil =>
      have hread : (before ++ ([] ++ 0 :: after))[before.length]? = some 0 :=
        getElem?_after_append before 0 after
      unfold String.setLoop
      rw [hread]
      simp only [writeByte, hdst, if_true]
      have hmin : min (n + 1) (([] : List Nat).length + 1) = 1 := by simp
      rw [hmin]
      simp [List.set_eq_take_append_cons_drop, hdst]
    | cons c body1 =>
      have hc : c ≠ 0 := hbody c (List.mem_cons_self _ _)
      have hread : (before ++ (c :: body1 ++ 0 :: after))[before.length]? = some c :=
        getElem?_after_append before c (body1 ++ 0 :: after)
      have hsrc : before ++ (c :: body1 ++ 0 :: after)
          = (before ++ [c]) ++ (body1 ++ 0 :: after) := by simp
      have hmin : min (n + 1) ((c :: body1).length + 1) = min n (body1.length + 1) + 1 := by
        simp only [List.length_cons]
        omega
      unfold String.setLoop
      rw [hread]
      simp only [writeByte, hdst, if_true, hc, if_false]
      have hih := ih body1 (before ++ [c]) (buffer.set dst c) (dst + 1)
        (fun b hb => hbody b (List.mem_cons_of_mem _ hb))
        (by rw [List.length_set]; rw [hmin] at hroom; omega)
      simp only [List.length_append, List.length_singleton] at hih
      rw [hsrc, hih, hmin]
      have htake : (buffer.set dst c).take (dst + 1) = buffer.take dst ++ [c] := by
        rw [List.set_eq_take_append_cons_drop, if_pos hdst]
        rw [List.take_append_eq_append_take]
        simp [List.length_take, Nat.min_eq_left (Nat.le_of_lt hdst)]
      have hdrop : (buffer.set dst c).drop (dst + 1 + min n (body1.length + 1))
          = buffer.drop (dst + (min n (body1.length + 1) + 1)) := by
        rw [List.drop_set_of_lt _ _ (by omega)]
        congr 1
        omega
      rw [htake, hdrop]
      simp only [List.cons_append, List.take_succ_cons, List.append_assoc,
        List.singleton_append, Nat.add_assoc]
      congr 2
      omega

theorem set_closed_form (buffer body after : List Nat) (bufferSize srcSize : Nat)
    (hbody : ∀ b ∈ body, b ≠ 0) (hone : 1 ≤ bufferSize)
    (hroom : bufferSize ≤ buffer.length) :
    String.Set buffer bufferSize (body ++ 0 :: after) srcSize
      = some ((body ++ [0]).take (min (bufferSize - 1) srcSize)
          ++ 0 :: buffer.drop (min (min (bufferSize - 1) srcSize) (body.length + 1) + 1)) := by
  have hwrap : sizeMinusOne bufferSize = bufferSize - 1 := by
    unfold sizeMinusOne
    rw [if_neg (by omega)]
  have hM : min (min (bufferSize - 1) srcSize) (body.length + 1) < buffer.length := by
    have h1 : min (min (bufferSize - 1) srcSize) (body.length + 1) ≤ bufferSize - 1 :=
      Nat.le_trans (Nat.min_le_left _ _) (Nat.min_le_left _ _)
    omega
  have hloop := setLoop_spec after (min (bufferSize - 1) srcSize) body [] buffer 0 hbody
    (by simp only [Nat.zero_add]; omega)
  simp only [List.nil_append, List.length_nil, Nat.zero_add, List.take_zero] at hloop
  rw [String.Set, hwrap, hloop]
  have hlen : ((body ++ [0]).take (min (bufferSize - 1) srcSize)).length
      = min (min (bufferSize - 1) srcSize) (body.length + 1) := by
    simp [List.length_take]
  have hwlen : min (min (bufferSize - 1) srcSize) (body.length + 1)
      < ((body ++ [0]).take (min (bufferSize - 1) srcSize)
          ++ buffer.drop (min (min (bufferSize - 1) srcSize) (body.length + 1))).length := by
    rw [List.length_append, hlen, List.length_drop]
    omega
  simp only [writeByte, hwlen, if_true, Option.some.injEq]
  have hset : (buffer.drop (min (min (bufferSize - 1) srcSize) (body.length + 1))).set 0 0
      = 0 :: buffer.drop (min (min (bufferSize - 1) srcSize) (body.length + 1) + 1) := by
    rw [List.drop_eq_getElem_cons hM]
    rfl
  rw [List.set_append_right _ _ (by rw [hlen]), hlen, Nat.sub_self, hset]

theorem cString_append_zero (x rest : List Nat) (hx : ∀ b ∈ x, b ≠ 0) :
    cString (x ++ 0 :: rest) = x := by
  unfold cString
  rw [List.takeWhile_append_of_pos (by simpa using hx)]
  simp

theorem cString_split (src : List Nat) (hsrc : 0 ∈ src) :
    ∃ after, src = cString src ++ 0 :: after ∧ ∀ b ∈ cString src, b ≠ 0 := by
  have hno : ∀ b ∈ cString src, b ≠ 0 := by
    intro b hb
    have := List.mem_takeWhile_imp hb
    simpa using this
  have hsplit := List.takeWhile_append_dropWhile (fun b : Nat => decide (b ≠ 0)) src
  cases hd : src.dropWhile (fun b : Nat => decide (b ≠ 0)) with
  | nil =>
    exfalso
    have hall := List.dropWhile_eq_nil_iff.mp hd
    have := hall 0 hsrc
    simp at this
  | cons c after =>
    have hc := List.head?_dropWhile_not (fun b : Nat => decide (b ≠ 0)) src
    rw [hd] at hc
    have hc0 : c = 0 := by simpa using hc
    refine ⟨after, ?_, hno⟩
    rw [hd, hc0] at hsplit
    exact hsplit.symm

/-- C23: for a buffer size of at least 1 and a NUL-terminated `src`, `Set`
succeeds on every buffer of at least `bufferSize` bytes, in particular on one
of exactly `bufferSize` bytes, where a write at an index of `bufferSize` or
more would fail.  Afterwards the buffer holds the C string made of the first
`min(bufferSize - 1, srcSize, strlen(src))` bytes of `src`, a 0 stands right
after them, and every byte at an index of `bufferSize` or more is as it was. -/
theorem set_bounded (buffer src : List Nat) (bufferSize srcSize : Nat)
    (hone : 1 ≤ bufferSize) (hroom : bufferSize ≤ buffer.length) (hsrc : 0 ∈ src) :
    ∃ result, String.Set buffer bufferSize src srcSize = some result ∧
      result.length = buffer.length ∧
      cString result
        = src.take (min (min (bufferSize - 1) srcSize) (cString src).length) ∧
      result[min (min (bufferSize - 1) srcSize) (cString src).length]? = some 0 ∧
      result.drop bufferSize = buffer.drop bufferSize := by
  obtain ⟨after, hsplit, hno⟩ := cString_split src hsrc
  generalize hbody : cString src = body at hsplit hno
  subst hsplit
  refine ⟨_, set_closed_form buffer body after bufferSize srcSize hno hone hroom, ?_⟩
  generalize hm : min (bufferSize - 1) srcSize = m
  have hmle : m ≤ bufferSize - 1 := by rw [← hm]; exact Nat.min_le_left _ _
  by_cases hcase : m ≤ body.length
  · have h1 : min m (body.length + 1) = m := by omega
    have h2 : min m body.length = m := by omega
    have htake : (body ++ [0]).take m = body.take m := by
      rw [List.take_append_of_le_length hcase]
    have hsrctake : (body ++ 0 :: after).take m = body.take m := by
      rw [List.take_append_of_le_length hcase]
    have hlen : (body.take m).length = m := by
      rw [List.length_take]
      omega
    rw [h1, h2, htake, hsrctake]
    refine ⟨?_, ?_, ?_, ?_⟩
    · simp only [List.length_append, List.length_cons, List.length_drop, hlen]
      omega
    · exact cString_append_zero _ _ (fun b hb => hno b (List.mem_of_mem_take hb))
    · rw [List.getElem?_append_right (by rw [hlen]), hlen, Nat.sub_self]
      simp
    · have hdrop : bufferSize = (body.take m ++ [0]).length + (bufferSize - (m + 1)) := by
        simp only [List.length_append, hlen, List.length_singleton]
        omega
      have hcons : body.take m ++ 0 :: buffer.drop (m + 1)
          = (body.take m ++ [0]) ++ buffer.drop (m + 1) := by simp
      rw [hcons]
      conv_lhs => rw [hdrop, List.drop_append]
      rw [List.drop_drop]
      congr 1
      omega
  · have h1 : min m (body.length + 1) = body.length + 1 := by omega
    have h2 : min m body.length = body.length := by omega
    have htake : (body ++ [0]).take m = body ++ [0] := by
      apply List.take_of_length_le
      simp only [List.length_append, List.length_singleton]
      omega
    have hsrctake : (body ++ 0 :: after).take body.length = body := List.take_left _ _
    rw [h1, h2, htake, hsrctake]
    refine ⟨?_, ?_, ?_, ?_⟩
    · simp only [List.length_append, List.length_cons, List.length_drop, List.length_nil]
      omega
    · rw [List.append_assoc]
      exact cString_append_zero _ _ hno
    · rw [List.append_assoc, List.getElem?_append_right (Nat.le_refl _), Nat.sub_self]
      simp
    · have hdrop : bufferSize
          = ((body ++ [0]) ++ [0]).length + (bufferSize - (body.length + 1 + 1)) := by
        simp only [List.length_append, List.length_singleton]
        omega
      have hcons : (body ++ [0]) ++ 0 :: buffer.drop (body.length + 1 + 1)
          = ((body ++ [0]) ++ [0]) ++ buffer.drop (body.length + 1 + 1) := by simp
      rw [hcons]
      conv_lhs => rw [hdrop, List.drop_append]
      rw [List.drop_drop]
      congr 1
      omega

/-- Witness of C23: a buffer of exactly four bytes takes the first three
bytes of "hello" and the terminator. -/
theorem set_bounded_witness :
    String.Set [9, 9, 9, 9] 4 [0x68, 0x65, 0x6C, 0x6C, 0x6F, 0] 10
      = some [0x68, 0x65, 0x6C, 0] ∧
    ∃ result, String.Set [9, 9, 9, 9] 4 [0x68, 0x65, 0x6C, 0x6C, 0x6F, 0] 10 = some result ∧
      result.length = [9, 9, 9, 9].length ∧
      cString result
        = [0x68, 0x65, 0x6C, 0x6C, 0x6F, 0].take
            (min (min (4 - 1) 10) (cString [0x68, 0x65, 0x6C, 0x6C, 0x6F, 0]).length) ∧
      result[min (min (4 - 1) 10) (cString [0x68, 0x65, 0x6C, 0x6C, 0x6F, 0]).length]?
        = some 0 ∧
      result.drop 4 = [9, 9, 9, 9].drop 4 :=
  ⟨by decide,
    set_bounded [9, 9, 9, 9] [0x68, 0x65, 0x6C, 0x6C, 0x6F, 0] 4 10 (by decide) (by decide)
      (by decide)⟩

end OpenRCT2
